import Mathlib

/-!
Verification of the chess rule engine and AI move selector of the
`go-games` repository (`core/game/moves.go`, `core/game/rules.go`,
`core/ai/manager.go`).  Go values are shallowly embedded: the `[8][8]int`
board becomes a total function `Int → Int → Int` indexed as
`board row col` (Go `board[y][x]`), Go `int` becomes `Int`,
`time.Time`/`time.Duration` become `Int` (wall-clock instants are passed
explicitly where the Go code calls `time.Now()`), and methods that
mutate their receiver become functions returning the new state.
-/

namespace Chess

/-- Piece constants (Go `const` block in the `game` package). -/
def Empty : Int := 0
def WhitePawn : Int := 1
def WhiteKnight : Int := 2
def WhiteBishop : Int := 3
def WhiteRook : Int := 4
def WhiteQueen : Int := 5
def WhiteKing : Int := 6
def BlackPawn : Int := 7
def BlackKnight : Int := 8
def BlackBishop : Int := 9
def BlackRook : Int := 10
def BlackQueen : Int := 11
def BlackKing : Int := 12

/-- Player constants. -/
def WhitePlayer : Int := 0
def BlackPlayer : Int := 1

/-- A square of the chess board, Go `Position{X, Y}`. -/
structure Position where
  X : Int
  Y : Int
deriving DecidableEq, Repr

/-- The Go `[8][8]int` board, embedded as a total function
`row ↦ col ↦ piece` (Go indexes `board[y][x]`); squares outside
`[0,8) × [0,8)` are junk that the code never reads on valid input. -/
def Board : Type := Int → Int → Int

/-- Read `board[y][x]`. -/
def bget (b : Board) (y x : Int) : Int := b y x

/-- Write `board[y][x] = v`. -/
def bset (b : Board) (y x v : Int) : Board :=
  fun Y X => if Y = y ∧ X = x then v else b Y X

/-- Build a board from row literals (row 0 first, as in the Go array). -/
def boardOfRows (rows : List (List Int)) : Board :=
  fun y x => ((rows.getD y.toNat []).getD x.toNat 0)

/-- Result of a move attempt (Go `MoveResult`). -/
inductive MoveResult where
  | InvalidMove
  | ValidMove
  | Check
  | Checkmate
  | Stalemate
  | Draw
  | Castling
deriving DecidableEq, Repr

/-- Status of the game (Go `GameStatus`). -/
inductive GameStatus where
  | InProgress
  | WhiteWon
  | BlackWon
  | GameDraw
deriving DecidableEq, Repr

/-- A recorded chess move (Go `Move` struct); fields that the Go code
never assigns keep their Go zero values. -/
structure Move where
  From : Position
  To : Position
  Piece : Int
  Captured : Int
  Promotion : Int
  Check : Bool
  Checkmate : Bool
  Castling : Bool
deriving DecidableEq, Repr

instance : Inhabited Move :=
  ⟨⟨⟨0, 0⟩, ⟨0, 0⟩, 0, 0, 0, false, false, false⟩⟩

/-- The Go `GameState` struct.  `time.Duration`/`time.Time` are `Int`. -/
structure GameState where
  Board : Board
  CurrentTurn : Int
  MoveHistory : List Move
  WhiteKingMoved : Bool
  BlackKingMoved : Bool
  WhiteRookAMoved : Bool
  WhiteRookHMoved : Bool
  BlackRookAMoved : Bool
  BlackRookHMoved : Bool
  GameStatus : GameStatus
  WhitePlayerTime : Int
  BlackPlayerTime : Int
  LastMoveTime : Int
  TimerActive : Bool
  SelectedPosition : Option Position

/-- Go `IsValidBoardPosition` (rules.go). -/
def IsValidBoardPosition (pos : Position) : Bool :=
  decide (0 ≤ pos.X) && decide (pos.X < 8) && decide (0 ≤ pos.Y) && decide (pos.Y < 8)

/-- Go `IsPieceWhite` (rules.go). -/
def IsPieceWhite (piece : Int) : Bool :=
  decide (WhitePawn ≤ piece) && decide (piece ≤ WhiteKing)

/-- Go `IsPieceBlack` (rules.go). -/
def IsPieceBlack (piece : Int) : Bool :=
  decide (BlackPawn ≤ piece) && decide (piece ≤ BlackKing)

/-- Go `InitializeBoard` (rules.go), written as row literals. -/
def InitializeBoard : Board :=
  boardOfRows
    [[WhiteRook, WhiteKnight, WhiteBishop, WhiteQueen, WhiteKing, WhiteBishop, WhiteKnight, WhiteRook],
     [WhitePawn, WhitePawn, WhitePawn, WhitePawn, WhitePawn, WhitePawn, WhitePawn, WhitePawn],
     [0, 0, 0, 0, 0, 0, 0, 0],
     [0, 0, 0, 0, 0, 0, 0, 0],
     [0, 0, 0, 0, 0, 0, 0, 0],
     [0, 0, 0, 0, 0, 0, 0, 0],
     [BlackPawn, BlackPawn, BlackPawn, BlackPawn, BlackPawn, BlackPawn, BlackPawn, BlackPawn],
     [BlackRook, BlackKnight, BlackBishop, BlackQueen, BlackKing, BlackBishop, BlackKnight, BlackRook]]

/-- Go `getPawnMoves` (moves.go). -/
def getPawnMoves (board : Board) (pos : Position) : List Position :=
  let piece := bget board pos.Y pos.X
  let isWhite := IsPieceWhite piece
  let dir : Int := if isWhite then 1 else -1
  let startRow : Int := if isWhite then 1 else 6
  let newPos : Position := ⟨pos.X, pos.Y + dir⟩
  let forwardMoves :=
    if IsValidBoardPosition newPos = true ∧ bget board newPos.Y newPos.X = Empty then
      [newPos] ++
        (if pos.Y = startRow then
          let doublePos : Position := ⟨pos.X, pos.Y + 2 * dir⟩
          if IsValidBoardPosition doublePos = true ∧ bget board doublePos.Y doublePos.X = Empty then
            [doublePos]
          else []
        else [])
    else []
  let captureMoves :=
    ([-1, 1] : List Int).foldr
      (fun dx acc =>
        let capturePos : Position := ⟨pos.X + dx, pos.Y + dir⟩
        if IsValidBoardPosition capturePos = true then
          let targetPiece := bget board capturePos.Y capturePos.X
          if targetPiece ≠ Empty ∧ isWhite ≠ IsPieceWhite targetPiece then
            capturePos :: acc
          else acc
        else acc)
      []
  forwardMoves ++ captureMoves

/-- The eight knight offsets of Go `getKnightMoves`. -/
def knightOffsets : List Position :=
  [⟨-2, -1⟩, ⟨-2, 1⟩, ⟨-1, -2⟩, ⟨-1, 2⟩, ⟨1, -2⟩, ⟨1, 2⟩, ⟨2, -1⟩, ⟨2, 1⟩]

/-- Go `getKnightMoves` (moves.go). -/
def getKnightMoves (board : Board) (pos : Position) : List Position :=
  let piece := bget board pos.Y pos.X
  let isWhite := IsPieceWhite piece
  knightOffsets.foldr
    (fun offset acc =>
      let newPos : Position := ⟨pos.X + offset.X, pos.Y + offset.Y⟩
      if IsValidBoardPosition newPos = true then
        let targetPiece := bget board newPos.Y newPos.X
        if targetPiece = Empty ∨ isWhite ≠ IsPieceWhite targetPiece then
          newPos :: acc
        else acc
      else acc)
    []

/-- One ray of Go `getBishopMoves`/`getRookMoves`: the loop
`for i := fuelStart; i < 8; i++` with its two `break` conditions,
with `fuel` counting the remaining iterations (called with fuel 7, i 1). -/
def rayMoves (board : Board) (pos : Position) (isWhite : Bool) (d : Position) :
    Nat → Int → List Position
  | 0, _ => []
  | fuel + 1, i =>
    let newPos : Position := ⟨pos.X + i * d.X, pos.Y + i * d.Y⟩
    if IsValidBoardPosition newPos = true then
      let targetPiece := bget board newPos.Y newPos.X
      if targetPiece = Empty then
        newPos :: rayMoves board pos isWhite d fuel (i + 1)
      else if isWhite ≠ IsPieceWhite targetPiece then
        [newPos]
      else []
    else []

/-- Go `getBishopMoves` (moves.go). -/
def getBishopMoves (board : Board) (pos : Position) : List Position :=
  let piece := bget board pos.Y pos.X
  let isWhite := IsPieceWhite piece
  ([⟨-1, -1⟩, ⟨1, -1⟩, ⟨-1, 1⟩, ⟨1, 1⟩] : List Position).foldr
    (fun d acc => rayMoves board pos isWhite d 7 1 ++ acc) []

/-- Go `getRookMoves` (moves.go). -/
def getRookMoves (board : Board) (pos : Position) : List Position :=
  let piece := bget board pos.Y pos.X
  let isWhite := IsPieceWhite piece
  ([⟨0, -1⟩, ⟨1, 0⟩, ⟨0, 1⟩, ⟨-1, 0⟩] : List Position).foldr
    (fun d acc => rayMoves board pos isWhite d 7 1 ++ acc) []

/-- Go `getQueenMoves` (moves.go). -/
def getQueenMoves (board : Board) (pos : Position) : List Position :=
  getBishopMoves board pos ++ getRookMoves board pos

/-- The eight king offsets of Go `getKingMoves`. -/
def kingOffsets : List Position :=
  [⟨-1, -1⟩, ⟨0, -1⟩, ⟨1, -1⟩, ⟨-1, 0⟩, ⟨1, 0⟩, ⟨-1, 1⟩, ⟨0, 1⟩, ⟨1, 1⟩]

/-- Go `getKingMoves` (moves.go). -/
def getKingMoves (board : Board) (pos : Position) : List Position :=
  let piece := bget board pos.Y pos.X
  let isWhite := IsPieceWhite piece
  kingOffsets.foldr
    (fun d acc =>
      let newPos : Position := ⟨pos.X + d.X, pos.Y + d.Y⟩
      if IsValidBoardPosition newPos = true then
        let targetPiece := bget board newPos.Y newPos.X
        if targetPiece = Empty ∨ isWhite ≠ IsPieceWhite targetPiece then
          newPos :: acc
        else acc
      else acc)
    []

/-- Go `GetPieceMoves` (moves.go), the `switch piece` dispatch. -/
def GetPieceMoves (board : Board) (pos : Position) : List Position :=
  let piece := bget board pos.Y pos.X
  if piece = WhitePawn ∨ piece = BlackPawn then getPawnMoves board pos
  else if piece = WhiteKnight ∨ piece = BlackKnight then getKnightMoves board pos
  else if piece = WhiteBishop ∨ piece = BlackBishop then getBishopMoves board pos
  else if piece = WhiteRook ∨ piece = BlackRook then getRookMoves board pos
  else if piece = WhiteQueen ∨ piece = BlackQueen then getQueenMoves board pos
  else if piece = WhiteKing ∨ piece = BlackKing then getKingMoves board pos
  else []

/-- Go `GetKingMovesWithCastling` (moves.go). -/
def GetKingMovesWithCastling (board : Board) (pos : Position) (gameState : GameState) :
    List Position :=
  let moves := getKingMoves board pos
  let piece := bget board pos.Y pos.X
  let isWhite := IsPieceWhite piece
  if isWhite = true then
    let m1 :=
      if gameState.WhiteKingMoved = false ∧ gameState.WhiteRookAMoved = false then
        if bget board 0 1 = Empty ∧ bget board 0 2 = Empty ∧ bget board 0 3 = Empty then
          moves ++ [⟨2, 0⟩]
        else moves
      else moves
    if gameState.WhiteKingMoved = false ∧ gameState.WhiteRookHMoved = false then
      if bget board 0 5 = Empty ∧ bget board 0 6 = Empty then m1 ++ [⟨6, 0⟩] else m1
    else m1
  else
    let m1 :=
      if gameState.BlackKingMoved = false ∧ gameState.BlackRookAMoved = false then
        if bget board 7 1 = Empty ∧ bget board 7 2 = Empty ∧ bget board 7 3 = Empty then
          moves ++ [⟨2, 7⟩]
        else moves
      else moves
    if gameState.BlackKingMoved = false ∧ gameState.BlackRookHMoved = false then
      if bget board 7 5 = Empty ∧ bget board 7 6 = Empty then m1 ++ [⟨6, 7⟩] else m1
    else m1

/-- Go `GetPieceMovesWithGameState` (moves.go). -/
def GetPieceMovesWithGameState (board : Board) (pos : Position) (gameState : GameState) :
    List Position :=
  let piece := bget board pos.Y pos.X
  if piece = WhiteKing ∨ piece = BlackKing then
    GetKingMovesWithCastling board pos gameState
  else
    GetPieceMoves board pos

/-- The 64 squares in Go scan order (outer `y`, inner `x`). -/
def allSquares : List Position :=
  (List.range 8).flatMap (fun y => (List.range 8).map (fun x => ⟨(x : Int), (y : Int)⟩))

/-- Go `IsInCheck` (rules.go): locate the king by first match in scan
order (zero-value `Position{0,0}` when absent, as in Go), then test
whether any opposing piece has a pseudo-move onto it. -/
def IsInCheck (board : Board) (playerTurn : Int) : Bool :=
  let kingPiece := if playerTurn = BlackPlayer then BlackKing else WhiteKing
  let kingPos :=
    (allSquares.find? (fun p => decide (bget board p.Y p.X = kingPiece))).getD ⟨0, 0⟩
  allSquares.any (fun p =>
    let piece := bget board p.Y p.X
    (decide (piece ≠ Empty) &&
      ((decide (playerTurn = WhitePlayer) && IsPieceBlack piece) ||
        (decide (playerTurn = BlackPlayer) && IsPieceWhite piece))) &&
    (GetPieceMoves board p).any
      (fun move => decide (move.X = kingPos.X) && decide (move.Y = kingPos.Y)))

/-- The two-square scratch simulation used both by `canEscapeCheck`
(rules.go) and `GetPossibleMoves` (moves.go): clear the source square,
then write the moved piece on the destination. -/
def simulateMove (board : Board) (pos move : Position) : Board :=
  bset (bset board pos.Y pos.X Empty) move.Y move.X (bget board pos.Y pos.X)

/-- Go `canEscapeCheck` (rules.go). -/
def canEscapeCheck (board : Board) (playerTurn : Int) : Bool :=
  allSquares.any (fun p =>
    let piece := bget board p.Y p.X
    (decide (piece ≠ Empty) &&
      ((decide (playerTurn = WhitePlayer) && IsPieceWhite piece) ||
        (decide (playerTurn = BlackPlayer) && IsPieceBlack piece))) &&
    (GetPieceMoves board p).any
      (fun move => !(IsInCheck (simulateMove board p move) playerTurn)))

/-- Go `IsCheckmate` (rules.go). -/
def IsCheckmate (board : Board) (playerTurn : Int) : Bool :=
  if IsInCheck board playerTurn = false then false
  else !(canEscapeCheck board playerTurn)

/-- Go `IsStalemate` (rules.go). -/
def IsStalemate (board : Board) (playerTurn : Int) : Bool :=
  if IsInCheck board playerTurn = true then false
  else
    !(allSquares.any (fun p =>
      let piece := bget board p.Y p.X
      (decide (piece ≠ Empty) &&
        ((decide (playerTurn = WhitePlayer) && IsPieceWhite piece) ||
          (decide (playerTurn = BlackPlayer) && IsPieceBlack piece))) &&
      decide (0 < (GetPieceMoves board p).length)))

/-- The pseudo-move set `MakeMove` validates against (moves.go lines
235–241): castling-augmented for kings, plain piece moves otherwise. -/
def pseudoTargets (g : GameState) (src : Position) : List Position :=
  let piece := bget g.Board src.Y src.X
  if piece = WhiteKing ∨ piece = BlackKing then
    GetPieceMovesWithGameState g.Board src g
  else
    GetPieceMoves g.Board src

/-- The rook relocation block of `MakeMove` (moves.go lines 257–278). -/
def castleRookApply (b : Board) (piece : Int) (src dst : Position) : Board :=
  if piece = WhiteKing ∨ piece = BlackKing then
    if dst.X - src.X = 2 then
      if piece = WhiteKing then bset (bset b 0 5 WhiteRook) 0 7 Empty
      else bset (bset b 7 5 BlackRook) 7 7 Empty
    else if src.X - dst.X = 2 then
      if piece = WhiteKing then bset (bset b 0 3 WhiteRook) 0 0 Empty
      else bset (bset b 7 3 BlackRook) 7 0 Empty
    else b
  else b

/-- The "has moved" flag updates of `MakeMove` (moves.go lines 283–299). -/
def applyMovedFlags (g : GameState) (piece : Int) (src : Position) : GameState :=
  if piece = WhiteKing then { g with WhiteKingMoved := true }
  else if piece = BlackKing then { g with BlackKingMoved := true }
  else if piece = WhiteRook then
    if src.X = 0 ∧ src.Y = 0 then { g with WhiteRookAMoved := true }
    else if src.X = 7 ∧ src.Y = 0 then { g with WhiteRookHMoved := true }
    else g
  else if piece = BlackRook then
    if src.X = 0 ∧ src.Y = 7 then { g with BlackRookAMoved := true }
    else if src.X = 7 ∧ src.Y = 7 then { g with BlackRookHMoved := true }
    else g
  else g

/-- The clock debit of `MakeMove` (moves.go lines 339–346): when the
timer is active, the elapsed time `now - LastMoveTime` is subtracted
from the player whose turn it now is not. -/
def timerApply (g : GameState) (now : Int) : GameState :=
  if g.TimerActive = true then
    if g.CurrentTurn = WhitePlayer then
      { g with BlackPlayerTime := g.BlackPlayerTime - (now - g.LastMoveTime) }
    else
      { g with WhitePlayerTime := g.WhitePlayerTime - (now - g.LastMoveTime) }
  else g

/-- The execution tail of Go `(*GameState).MakeMove` (moves.go lines
255–358), entered once all four validation guards have passed. -/
def makeMoveExec (g : GameState) (now : Int) (src dst : Position) : GameState × MoveResult :=
  let piece := bget g.Board src.Y src.X
  let capturedPiece := bget g.Board dst.Y dst.X
  let isCastling :=
    decide ((piece = WhiteKing ∨ piece = BlackKing) ∧
      (dst.X - src.X = 2 ∨ src.X - dst.X = 2))
  let board1 := castleRookApply g.Board piece src dst
  let board2 := bset (bset board1 dst.Y dst.X piece) src.Y src.X Empty
  let g2 := applyMovedFlags { g with Board := board2 } piece src
  let g3 := { g2 with CurrentTurn := 1 - g2.CurrentTurn }
  let isCheck := IsInCheck g3.Board g3.CurrentTurn
  let isCheckmate := if isCheck = true then IsCheckmate g3.Board g3.CurrentTurn else false
  let move : Move :=
    { From := src, To := dst, Piece := piece, Captured := capturedPiece,
      Promotion := 0, Check := isCheck, Checkmate := isCheckmate, Castling := isCastling }
  let g4 := { g3 with MoveHistory := g3.MoveHistory ++ [move] }
  if isCheckmate = true then
    ({ g4 with GameStatus :=
        if g4.CurrentTurn = WhitePlayer then .BlackWon else .WhiteWon }, .Checkmate)
  else if IsStalemate g4.Board g4.CurrentTurn = true then
    ({ g4 with GameStatus := .GameDraw }, .Stalemate)
  else
    let g5 := { timerApply g4 now with LastMoveTime := now }
    if isCheck = true then (g5, .Check)
    else if isCastling = true then (g5, .Castling)
    else (g5, .ValidMove)

/-- Go `(*GameState).MakeMove` (moves.go lines 219–358); the receiver
mutation becomes a returned state, and the `time.Now()` sample is the
explicit `now` argument. -/
def MakeMove (g : GameState) (now : Int) (src dst : Position) : GameState × MoveResult :=
  if ¬(IsValidBoardPosition src = true ∧ IsValidBoardPosition dst = true) then
    (g, .InvalidMove)
  else
    let piece := bget g.Board src.Y src.X
    if piece = Empty then (g, .InvalidMove)
    else if (g.CurrentTurn = WhitePlayer ∧ IsPieceWhite piece = false) ∨
        (g.CurrentTurn = BlackPlayer ∧ IsPieceBlack piece = false) then
      (g, .InvalidMove)
    else if (pseudoTargets g src).any
        (fun move => decide (move.X = dst.X) && decide (move.Y = dst.Y)) = false then
      (g, .InvalidMove)
    else makeMoveExec g now src dst

/-- Go `(*GameState).GetPossibleMoves` (moves.go lines 360–399). -/
def GetPossibleMoves (g : GameState) (pos : Position) : List Position :=
  if ¬(IsValidBoardPosition pos = true) then []
  else
    let piece := bget g.Board pos.Y pos.X
    if piece = Empty then []
    else if (g.CurrentTurn = WhitePlayer ∧ IsPieceWhite piece = false) ∨
        (g.CurrentTurn = BlackPlayer ∧ IsPieceBlack piece = false) then []
    else
      let allMoves :=
        if piece = WhiteKing ∨ piece = BlackKing then
          GetPieceMovesWithGameState g.Board pos g
        else GetPieceMoves g.Board pos
      allMoves.filter (fun move => !(IsInCheck (simulateMove g.Board pos move) g.CurrentTurn))

/-- Go `(*GameState).SelectPosition` (moves.go lines 412–434). -/
def SelectPosition (g : GameState) (now : Int) (pos : Position) : GameState × Bool :=
  if ¬(IsValidBoardPosition pos = true) then ({ g with SelectedPosition := none }, false)
  else
    let piece := bget g.Board pos.Y pos.X
    if piece ≠ Empty ∧ ((g.CurrentTurn = WhitePlayer ∧ IsPieceWhite piece = true) ∨
        (g.CurrentTurn = BlackPlayer ∧ IsPieceBlack piece = true)) then
      ({ g with SelectedPosition := some ⟨pos.X, pos.Y⟩ }, true)
    else
      match g.SelectedPosition with
      | some sel =>
        let res := MakeMove g now sel pos
        ({ res.1 with SelectedPosition := none }, decide (res.2 ≠ MoveResult.InvalidMove))
      | none => ({ g with SelectedPosition := none }, false)

/-- Go `(*GameState).UndoLastMove` (moves.go lines 436–453). -/
def UndoLastMove (g : GameState) : GameState × Bool :=
  match g.MoveHistory.getLast? with
  | none => (g, false)
  | some lastMove =>
    ({ g with
        Board := bset (bset g.Board lastMove.From.Y lastMove.From.X lastMove.Piece)
          lastMove.To.Y lastMove.To.X lastMove.Captured,
        GameStatus := .InProgress,
        CurrentTurn := 1 - g.CurrentTurn,
        MoveHistory := g.MoveHistory.dropLast }, true)

/-- Go `(*GameState).GetPieceAtPosition` (moves.go lines 479–484). -/
def GetPieceAtPosition (g : GameState) (pos : Position) : Int :=
  if ¬(IsValidBoardPosition pos = true) then Empty
  else bget g.Board pos.Y pos.X

/-- Go `(*GameState).StartTimer` (moves.go lines 486–491). -/
def StartTimer (g : GameState) (now : Int) : GameState :=
  if g.TimerActive = false then { g with LastMoveTime := now, TimerActive := true }
  else g

/-- Go `(*GameState).StopTimer` (moves.go lines 493–504). -/
def StopTimer (g : GameState) (now : Int) : GameState :=
  if g.TimerActive = true then
    let elapsed := now - g.LastMoveTime
    if g.CurrentTurn = WhitePlayer then
      { g with WhitePlayerTime := g.WhitePlayerTime - elapsed, TimerActive := false }
    else
      { g with BlackPlayerTime := g.BlackPlayerTime - elapsed, TimerActive := false }
  else g

/-- Go `(*GameState).GetRemainingTime` (moves.go lines 506–511). -/
def GetRemainingTime (g : GameState) (player : Int) : Int :=
  if player = WhitePlayer then g.WhitePlayerTime else g.BlackPlayerTime

/-- Go `(*GameState).IsGameOver` (moves.go lines 513–515). -/
def IsGameOver (g : GameState) : Bool :=
  decide (g.GameStatus ≠ GameStatus.InProgress)

/-- Go `PieceValues` map (manager.go); Go map lookup yields the zero
value `0` for absent keys. -/
def PieceValues (piece : Int) : Int :=
  if piece = WhitePawn ∨ piece = BlackPawn then 100
  else if piece = WhiteKnight ∨ piece = BlackKnight then 320
  else if piece = WhiteBishop ∨ piece = BlackBishop then 330
  else if piece = WhiteRook ∨ piece = BlackRook then 500
  else if piece = WhiteQueen ∨ piece = BlackQueen then 900
  else if piece = WhiteKing ∨ piece = BlackKing then 20000
  else 0

/-- Go `PieceProtectionValue` map (manager.go), zero for absent keys. -/
def PieceProtectionValue (piece : Int) : Int :=
  if piece = WhitePawn ∨ piece = BlackPawn then 50
  else if piece = WhiteKnight ∨ piece = BlackKnight then 200
  else if piece = WhiteBishop ∨ piece = BlackBishop then 200
  else if piece = WhiteRook ∨ piece = BlackRook then 350
  else if piece = WhiteQueen ∨ piece = BlackQueen then 800
  else if piece = WhiteKing ∨ piece = BlackKing then 5000
  else 0

/-- The AI-side `Move` struct (manager.go), distinct from the history
record `Move` of the game package. -/
structure AIMove where
  From : Position
  To : Position
  Piece : Int
  CapturePiece : Int
  Score : Int
deriving DecidableEq, Repr

instance : Inhabited AIMove := ⟨⟨⟨0, 0⟩, ⟨0, 0⟩, 0, 0, 0⟩⟩

/-- The Go `ChessAI` struct (manager.go); the `gameState` pointer is
passed explicitly to each operation and the random source is modelled
by an explicit draw `rnd`, so both are omitted from the record. -/
structure ChessAI where
  playerColor : Int
  difficulty : Int
  aiColor : Int

/-- Go `NewChessAI` (manager.go): note it sets `aiColor` to
`playerColor`. -/
def NewChessAI (playerColor difficulty : Int) : ChessAI :=
  { playerColor := playerColor, difficulty := difficulty, aiColor := playerColor }

/-- Go `isPositionUnderAttack` (manager.go). -/
def isPositionUnderAttack (board : Board) (pos : Position) (playerColor : Int) : Bool :=
  let opponentColor := if playerColor = BlackPlayer then WhitePlayer else BlackPlayer
  allSquares.any (fun p =>
    let piece := bget board p.Y p.X
    (decide (piece ≠ Empty) &&
      !((decide (opponentColor = WhitePlayer) && !(IsPieceWhite piece)) ||
        (decide (opponentColor = BlackPlayer) && IsPieceWhite piece))) &&
    (GetPieceMoves board p).any
      (fun move => decide (move.X = pos.X) && decide (move.Y = pos.Y)))

/-- Go `ChessAI.getAllPossibleMoves` (manager.go lines 219–252). -/
def getAllPossibleMoves (g : GameState) (color : Int) : List AIMove :=
  allSquares.flatMap (fun pos =>
    let piece := GetPieceAtPosition g pos
    if piece = Empty then []
    else if (color = WhitePlayer ∧ IsPieceWhite piece = false) ∨
        (color = BlackPlayer ∧ IsPieceWhite piece = true) then []
    else
      (GetPossibleMoves g pos).map (fun movePos =>
        { From := pos, To := movePos, Piece := piece,
          CapturePiece := GetPieceAtPosition g movePos, Score := 0 }))

/-- The scratch-board writes shared by the three scoring loops of
manager.go: destination first, then source cleared. -/
def aiSimBoard (b : Board) (f t : Position) : Board :=
  bset (bset b t.Y t.X (bget b f.Y f.X)) f.Y f.X Empty

/-- The per-move scoring of Go `ChessAI.getRandomMove` (manager.go
lines 256–288). -/
def rescoreEasy (ai : ChessAI) (g : GameState) (m : AIMove) : AIMove :=
  let piece := bget g.Board m.From.Y m.From.X
  let capturedPiece := bget g.Board m.To.Y m.To.X
  let tempBoard := aiSimBoard g.Board m.From m.To
  let s1 : Int := 0
  let s2 := if IsInCheck tempBoard ai.aiColor = true then s1 - 500 else s1
  let s3 :=
    if piece = WhiteQueen ∨ piece = BlackQueen then
      if isPositionUnderAttack tempBoard m.To ai.playerColor = true then
        if PieceValues capturedPiece < 600 then s2 - 800 else s2
      else s2
    else s2
  { m with Score := s3 }

/-- Go `ChessAI.getRandomMove` (manager.go lines 254–326); `rnd`
models the single `rand.Intn` draw actually consumed. -/
def getRandomMove (ai : ChessAI) (g : GameState) (rnd : Nat) (moves : List AIMove) : AIMove :=
  let scored := moves.map (rescoreEasy ai g)
  let goodMoves := scored.filter (fun m => decide (0 ≤ m.Score))
  let okayMoves := scored.filter (fun m => decide (m.Score < 0) && decide (-400 < m.Score))
  if 0 < goodMoves.length then goodMoves.getD (rnd % goodMoves.length) default
  else if 0 < okayMoves.length then okayMoves.getD (rnd % okayMoves.length) default
  else
    let safeMoves := scored.filter (fun m => decide (-700 < m.Score))
    if 0 < safeMoves.length then safeMoves.getD (rnd % safeMoves.length) default
    else scored.getD (rnd % scored.length) default

/-- The per-move scoring of Go `ChessAI.getMediumMove` (manager.go
lines 329–363). -/
def rescoreMedium (ai : ChessAI) (g : GameState) (m : AIMove) : AIMove :=
  let s0 : Int := if m.CapturePiece ≠ Empty then PieceValues m.CapturePiece else 0
  let piece := bget g.Board m.From.Y m.From.X
  let capturedPiece := bget g.Board m.To.Y m.To.X
  let tempBoard := aiSimBoard g.Board m.From m.To
  let s1 := if IsInCheck tempBoard ai.aiColor = true then s0 - 1000 else s0
  let s2 := if (2 ≤ m.To.X ∧ m.To.X ≤ 5) ∧ (2 ≤ m.To.Y ∧ m.To.Y ≤ 5) then s1 + 10 else s1
  let s3 :=
    if isPositionUnderAttack tempBoard m.To ai.playerColor = true then
      if piece = WhiteQueen ∨ piece = BlackQueen then
        s2 - (900 + PieceProtectionValue piece)
      else if PieceValues capturedPiece < PieceValues piece then
        s2 - PieceProtectionValue piece
      else s2
    else s2
  { m with Score := s3 }

/-- One conditional swap of Go `sortMovesByScore` (manager.go lines
375–383). -/
def sortSwap (l : List AIMove) (i j : Nat) : List AIMove :=
  if (l.getD i default).Score < (l.getD j default).Score then
    (l.set i (l.getD j default)).set j (l.getD i default)
  else l

/-- Go `sortMovesByScore` (manager.go): the in-place double loop of
conditional swaps, descending by score. -/
def sortMovesByScore (l : List AIMove) : List AIMove :=
  let n := l.length
  (List.range (n - 1)).foldl
    (fun acc i => (List.range' (i + 1) (n - (i + 1))).foldl (fun acc2 j => sortSwap acc2 i j) acc)
    l

/-- Go `ChessAI.getMediumMove` (manager.go lines 328–373). -/
def getMediumMove (ai : ChessAI) (g : GameState) (rnd : Nat) (moves : List AIMove) : AIMove :=
  let scored := moves.map (rescoreMedium ai g)
  let sorted := sortMovesByScore scored
  let numToConsider := if scored.length < 3 then scored.length else 3
  sorted.getD (rnd % numToConsider) default

/-- The per-move scoring of Go `ChessAI.getHardMove` (manager.go lines
396–481). -/
def rescoreHard (ai : ChessAI) (g : GameState) (m : AIMove) : AIMove :=
  let s0 : Int := PieceValues m.CapturePiece
  let piece := bget g.Board m.From.Y m.From.X
  let capturedPiece := bget g.Board m.To.Y m.To.X
  let s1 :=
    if piece = WhiteQueen ∨ piece = BlackQueen then
      if capturedPiece ≠ WhiteQueen ∧ capturedPiece ≠ BlackQueen then
        s0 - (900 + (PieceValues piece - PieceValues capturedPiece) * 2)
      else s0
    else if PieceValues capturedPiece + 20 < PieceValues piece then
      s0 - (PieceValues piece - PieceValues capturedPiece)
    else s0
  let tempBoard := aiSimBoard g.Board m.From m.To
  let s2 :=
    if isPositionUnderAttack tempBoard m.To ai.playerColor = true then
      if piece = WhiteQueen ∨ piece = BlackQueen then s1 - (900 + PieceProtectionValue piece)
      else s1 - PieceProtectionValue piece
    else s1
  let opponentColor := if ai.playerColor = WhitePlayer then BlackPlayer else WhitePlayer
  let s3 :=
    if IsInCheck tempBoard opponentColor = true then
      if IsCheckmate tempBoard opponentColor = true then s2 + 60 + 20000 else s2 + 60
    else s2
  let s4 := if IsInCheck tempBoard ai.aiColor = true then s3 - 1500 else s3
  let s5 :=
    if (2 ≤ m.To.X ∧ m.To.X ≤ 5) ∧ (2 ≤ m.To.Y ∧ m.To.Y ≤ 5) then
      if (3 ≤ m.To.X ∧ m.To.X ≤ 4) ∧ (3 ≤ m.To.Y ∧ m.To.Y ≤ 4) then s4 + 25 else s4 + 15
    else s4
  let s6 :=
    if g.MoveHistory.length < 10 then
      if piece = WhiteKnight ∨ piece = BlackKnight ∨ piece = WhiteBishop ∨ piece = BlackBishop then
        let isStartingPos :=
          (piece = WhiteKnight ∧ m.From.Y = 0 ∧ (m.From.X = 1 ∨ m.From.X = 6)) ∨
          (piece = BlackKnight ∧ m.From.Y = 7 ∧ (m.From.X = 1 ∨ m.From.X = 6)) ∨
          (piece = WhiteBishop ∧ m.From.Y = 0 ∧ (m.From.X = 2 ∨ m.From.X = 5)) ∨
          (piece = BlackBishop ∧ m.From.Y = 7 ∧ (m.From.X = 2 ∨ m.From.X = 5))
        if isStartingPos then s5 + 40 else s5
      else s5
    else s5
  { m with Score := s6 }

/-- Go `ChessAI.getHardMove` (manager.go lines 395–495): highest score
wins, earlier moves win ties. -/
def getHardMove (ai : ChessAI) (g : GameState) (moves : List AIMove) : AIMove :=
  let scored := moves.map (rescoreHard ai g)
  match scored with
  | [] => default
  | best :: rest =>
    rest.foldl (fun bestMove move => if bestMove.Score < move.Score then move else bestMove) best

/-- The move-selection portion of Go `ChessAI.MakeMove` (manager.go
lines 175–206): `none` models the `return false` paths on which no
move is submitted to the game state; the final submission via
`GameState.MakeMove` is the caller's step. -/
def ChessAI.selectedMove (ai : ChessAI) (g : GameState) (rnd : Nat) : Option AIMove :=
  let aiColor := if ai.playerColor = WhitePlayer then BlackPlayer else WhitePlayer
  if g.CurrentTurn ≠ aiColor then none
  else
    let allMoves := getAllPossibleMoves g aiColor
    if allMoves.length = 0 then none
    else
      some
        (if ai.difficulty = 1 then getRandomMove ai g rnd allMoves
        else if ai.difficulty = 2 then getMediumMove ai g rnd allMoves
        else if ai.difficulty = 3 then getHardMove ai g allMoves
        else getRandomMove ai g rnd allMoves)

/-! ### Basic lemmas about the board and the state-update helpers -/

theorem bget_bset (b : Board) (y x v Y X : Int) :
    bget (bset b y x v) Y X = if Y = y ∧ X = x then v else bget b Y X := rfl

theorem bget_bset_same (b : Board) (y x v : Int) : bget (bset b y x v) y x = v := by
  simp [bget, bset]

@[simp] theorem applyMovedFlags_Board (g : GameState) (piece : Int) (src : Position) :
    (applyMovedFlags g piece src).Board = g.Board := by
  unfold applyMovedFlags; split_ifs <;> rfl

@[simp] theorem applyMovedFlags_CurrentTurn (g : GameState) (piece : Int) (src : Position) :
    (applyMovedFlags g piece src).CurrentTurn = g.CurrentTurn := by
  unfold applyMovedFlags; split_ifs <;> rfl

@[simp] theorem applyMovedFlags_MoveHistory (g : GameState) (piece : Int) (src : Position) :
    (applyMovedFlags g piece src).MoveHistory = g.MoveHistory := by
  unfold applyMovedFlags; split_ifs <;> rfl

@[simp] theorem applyMovedFlags_GameStatus (g : GameState) (piece : Int) (src : Position) :
    (applyMovedFlags g piece src).GameStatus = g.GameStatus := by
  unfold applyMovedFlags; split_ifs <;> rfl

@[simp] theorem applyMovedFlags_WhitePlayerTime (g : GameState) (piece : Int) (src : Position) :
    (applyMovedFlags g piece src).WhitePlayerTime = g.WhitePlayerTime := by
  unfold applyMovedFlags; split_ifs <;> rfl

@[simp] theorem applyMovedFlags_BlackPlayerTime (g : GameState) (piece : Int) (src : Position) :
    (applyMovedFlags g piece src).BlackPlayerTime = g.BlackPlayerTime := by
  unfold applyMovedFlags; split_ifs <;> rfl

@[simp] theorem applyMovedFlags_LastMoveTime (g : GameState) (piece : Int) (src : Position) :
    (applyMovedFlags g piece src).LastMoveTime = g.LastMoveTime := by
  unfold applyMovedFlags; split_ifs <;> rfl

@[simp] theorem applyMovedFlags_TimerActive (g : GameState) (piece : Int) (src : Position) :
    (applyMovedFlags g piece src).TimerActive = g.TimerActive := by
  unfold applyMovedFlags; split_ifs <;> rfl

@[simp] theorem applyMovedFlags_SelectedPosition (g : GameState) (piece : Int) (src : Position) :
    (applyMovedFlags g piece src).SelectedPosition = g.SelectedPosition := by
  unfold applyMovedFlags; split_ifs <;> rfl

@[simp] theorem timerApply_Board (g : GameState) (now : Int) :
    (timerApply g now).Board = g.Board := by
  unfold timerApply; split_ifs <;> rfl

@[simp] theorem timerApply_CurrentTurn (g : GameState) (now : Int) :
    (timerApply g now).CurrentTurn = g.CurrentTurn := by
  unfold timerApply; split_ifs <;> rfl

@[simp] theorem timerApply_MoveHistory (g : GameState) (now : Int) :
    (timerApply g now).MoveHistory = g.MoveHistory := by
  unfold timerApply; split_ifs <;> rfl

@[simp] theorem timerApply_GameStatus (g : GameState) (now : Int) :
    (timerApply g now).GameStatus = g.GameStatus := by
  unfold timerApply; split_ifs <;> rfl

@[simp] theorem timerApply_LastMoveTime (g : GameState) (now : Int) :
    (timerApply g now).LastMoveTime = g.LastMoveTime := by
  unfold timerApply; split_ifs <;> rfl

@[simp] theorem timerApply_TimerActive (g : GameState) (now : Int) :
    (timerApply g now).TimerActive = g.TimerActive := by
  unfold timerApply; split_ifs <;> rfl

theorem timerApply_times (g : GameState) (now : Int) :
    ((g.TimerActive = true ∧ g.CurrentTurn = WhitePlayer ∧
        (timerApply g now).BlackPlayerTime = g.BlackPlayerTime - (now - g.LastMoveTime) ∧
        (timerApply g now).WhitePlayerTime = g.WhitePlayerTime) ∨
      (g.TimerActive = true ∧ g.CurrentTurn ≠ WhitePlayer ∧
        (timerApply g now).WhitePlayerTime = g.WhitePlayerTime - (now - g.LastMoveTime) ∧
        (timerApply g now).BlackPlayerTime = g.BlackPlayerTime) ∨
      (g.TimerActive = false ∧
        (timerApply g now).WhitePlayerTime = g.WhitePlayerTime ∧
        (timerApply g now).BlackPlayerTime = g.BlackPlayerTime)) := by
  unfold timerApply
  by_cases hA : g.TimerActive = true
  · by_cases hT : g.CurrentTurn = WhitePlayer
    · exact Or.inl ⟨hA, hT, by simp [hA, hT], by simp [hA, hT]⟩
    · exact Or.inr (Or.inl ⟨hA, hT, by simp [hA, hT], by simp [hA, hT]⟩)
  · exact Or.inr (Or.inr ⟨by simpa using hA, by simp [hA], by simp [hA]⟩)

theorem timerApply_WhitePlayerTime (g : GameState) (now : Int) :
    (timerApply g now).WhitePlayerTime =
      if g.TimerActive = true ∧ ¬(g.CurrentTurn = WhitePlayer) then
        g.WhitePlayerTime - (now - g.LastMoveTime)
      else g.WhitePlayerTime := by
  unfold timerApply; split_ifs <;> simp_all

theorem timerApply_BlackPlayerTime (g : GameState) (now : Int) :
    (timerApply g now).BlackPlayerTime =
      if g.TimerActive = true ∧ g.CurrentTurn = WhitePlayer then
        g.BlackPlayerTime - (now - g.LastMoveTime)
      else g.BlackPlayerTime := by
  unfold timerApply; split_ifs <;> simp_all

theorem castleRookApply_of_not_castle (b : Board) (piece : Int) (src dst : Position)
    (h : ¬((piece = WhiteKing ∨ piece = BlackKing) ∧ (dst.X - src.X = 2 ∨ src.X - dst.X = 2))) :
    castleRookApply b piece src dst = b := by
  unfold castleRookApply
  split_ifs <;> first
  | rfl
  | exact absurd (by tauto) h

theorem any_coord_eq_mem (l : List Position) (dst : Position) :
    (l.any (fun move => decide (move.X = dst.X) && decide (move.Y = dst.Y))) = true ↔ dst ∈ l := by
  simp only [List.any_eq_true, Bool.and_eq_true, decide_eq_true_eq]
  constructor
  · rintro ⟨m, hm, hx, hy⟩
    have hmd : m = dst := by cases m; cases dst; simp_all
    exact hmd ▸ hm
  · intro h; exact ⟨dst, h, rfl, rfl⟩

theorem any_coord_eq_not_mem (l : List Position) (dst : Position) :
    (l.any (fun move => decide (move.X = dst.X) && decide (move.Y = dst.Y))) = false ↔ dst ∉ l := by
  rw [← any_coord_eq_mem l dst]
  constructor
  · intro h hc; rw [h] at hc; exact Bool.false_ne_true hc
  · intro h; exact Bool.eq_false_iff.mpr (fun hc => h hc)

/-- A fresh game state over a custom board: White to move, empty
history, no rights consumed, clock inactive (the non-board fields of Go
`NewGame`). -/
def stateOfBoard (b : Board) : GameState :=
  { Board := b, CurrentTurn := WhitePlayer, MoveHistory := [],
    WhiteKingMoved := false, BlackKingMoved := false, WhiteRookAMoved := false,
    WhiteRookHMoved := false, BlackRookAMoved := false, BlackRookHMoved := false,
    GameStatus := .InProgress, WhitePlayerTime := 100, BlackPlayerTime := 100,
    LastMoveTime := 0, TimerActive := false, SelectedPosition := none }

/-- White king e1, white rook e2 pinned by the black rook e8; black
king a8.  Moving the pinned rook sideways exposes the white king. -/
def pinBoard : Board := boardOfRows
  [[0, 0, 0, 0, WhiteKing, 0, 0, 0],
   [0, 0, 0, 0, WhiteRook, 0, 0, 0],
   [], [], [], [], [],
   [BlackKing, 0, 0, 0, BlackRook, 0, 0, 0]]

/-- Black king a8 mated by the white queen arriving on b7, guarded by
the white king on c6. -/
def mateBoard : Board := boardOfRows
  [[], [0, WhiteQueen, 0, 0, 0, 0, 0, 0],
   [], [], [],
   [0, 0, WhiteKing, 0, 0, 0, 0, 0],
   [],
   [BlackKing, 0, 0, 0, 0, 0, 0, 0]]

/-- White king e1 and rook h1 ready to castle king-side; black king
e8. -/
def castleBoard : Board := boardOfRows
  [[0, 0, 0, 0, WhiteKing, 0, 0, WhiteRook],
   [], [], [], [], [], [],
   [0, 0, 0, 0, BlackKing, 0, 0, 0]]

/-! ### Guard lemmas for `MakeMove` -/

theorem MakeMove_eq_invalid_of {g : GameState} {now : Int} {src dst : Position}
    (h : ¬(IsValidBoardPosition src = true ∧ IsValidBoardPosition dst = true) ∨
      bget g.Board src.Y src.X = Empty ∨
      ((g.CurrentTurn = WhitePlayer ∧ IsPieceWhite (bget g.Board src.Y src.X) = false) ∨
        (g.CurrentTurn = BlackPlayer ∧ IsPieceBlack (bget g.Board src.Y src.X) = false)) ∨
      dst ∉ pseudoTargets g src) :
    MakeMove g now src dst = (g, MoveResult.InvalidMove) := by
  simp only [MakeMove]
  split_ifs with h1 h2 h3 h4
  all_goals try rfl
  rcases h with h | h | h | h
  · exact absurd h1 h
  · exact absurd h h2
  · exact absurd h h3
  · exact absurd ((any_coord_eq_not_mem _ _).mpr h) h4

theorem MakeMove_eq_exec {g : GameState} {now : Int} {src dst : Position}
    (h1 : IsValidBoardPosition src = true ∧ IsValidBoardPosition dst = true)
    (h2 : bget g.Board src.Y src.X ≠ Empty)
    (h3 : ¬((g.CurrentTurn = WhitePlayer ∧ IsPieceWhite (bget g.Board src.Y src.X) = false) ∨
      (g.CurrentTurn = BlackPlayer ∧ IsPieceBlack (bget g.Board src.Y src.X) = false)))
    (h4 : dst ∈ pseudoTargets g src) :
    MakeMove g now src dst = makeMoveExec g now src dst := by
  simp only [MakeMove]
  rw [if_neg (not_not_intro h1), if_neg h2, if_neg h3,
    if_neg (fun hf => (any_coord_eq_not_mem _ _).mp hf h4)]

theorem makeMoveExec_snd_ne_invalid (g : GameState) (now : Int) (src dst : Position) :
    (makeMoveExec g now src dst).2 ≠ MoveResult.InvalidMove := by
  simp only [makeMoveExec]
  split_ifs <;> simp

/-! ### C1: which inputs `MakeMove` rejects -/

/-- C1 (amended): `MakeMove` returns `InvalidMove`, leaving the state
unchanged, exactly when a coordinate is out of range, the source square
is empty, the piece at the source belongs to the side not to move, or
the destination is not among the piece's *pseudo*-moves
(`pseudoTargets`, castling-augmented for kings); the check-filtered set
`GetPossibleMoves` plays no part in the test, so a move that leaves the
mover's own king in check is still accepted. -/
theorem claim_C1_invalid_iff (g : GameState) (now : Int) (src dst : Position) :
    ((MakeMove g now src dst).2 = MoveResult.InvalidMove ↔
      (¬(IsValidBoardPosition src = true ∧ IsValidBoardPosition dst = true) ∨
        bget g.Board src.Y src.X = Empty ∨
        ((g.CurrentTurn = WhitePlayer ∧ IsPieceWhite (bget g.Board src.Y src.X) = false) ∨
          (g.CurrentTurn = BlackPlayer ∧ IsPieceBlack (bget g.Board src.Y src.X) = false)) ∨
        dst ∉ pseudoTargets g src)) ∧
    ((MakeMove g now src dst).2 = MoveResult.InvalidMove → (MakeMove g now src dst).1 = g) := by
  by_cases hA : IsValidBoardPosition src = true ∧ IsValidBoardPosition dst = true
  case neg =>
    rw [MakeMove_eq_invalid_of (Or.inl hA)]
    exact ⟨⟨fun _ => Or.inl hA, fun _ => rfl⟩, fun _ => rfl⟩
  case pos =>
  by_cases hB : bget g.Board src.Y src.X = Empty
  case pos =>
    rw [MakeMove_eq_invalid_of (Or.inr (Or.inl hB))]
    exact ⟨⟨fun _ => Or.inr (Or.inl hB), fun _ => rfl⟩, fun _ => rfl⟩
  case neg =>
  by_cases hC : ((g.CurrentTurn = WhitePlayer ∧ IsPieceWhite (bget g.Board src.Y src.X) = false) ∨
      (g.CurrentTurn = BlackPlayer ∧ IsPieceBlack (bget g.Board src.Y src.X) = false))
  case pos =>
    rw [MakeMove_eq_invalid_of (Or.inr (Or.inr (Or.inl hC)))]
    exact ⟨⟨fun _ => Or.inr (Or.inr (Or.inl hC)), fun _ => rfl⟩, fun _ => rfl⟩
  case neg =>
  by_cases hD : dst ∈ pseudoTargets g src
  case neg =>
    rw [MakeMove_eq_invalid_of (Or.inr (Or.inr (Or.inr hD)))]
    exact ⟨⟨fun _ => Or.inr (Or.inr (Or.inr hD)), fun _ => rfl⟩, fun _ => rfl⟩
  case pos =>
    rw [MakeMove_eq_exec hA hB hC hD]
    have hne := makeMoveExec_snd_ne_invalid g now src dst
    refine ⟨⟨fun hc => absurd hc hne, fun hc => ?_⟩, fun hc => absurd hc hne⟩
    rcases hc with hc | hc | hc | hc
    · exact absurd hA hc
    · exact absurd hc hB
    · exact absurd hc hC
    · exact absurd hD hc

/-! ### C4: characterization of `GetPossibleMoves` -/

/-- C4: `GetPossibleMoves` returns the empty set off the board, on an
empty square, or on a piece of the side not to move; otherwise it is
exactly the pseudo-move set filtered by simulating each candidate on a
scratch board and keeping those that leave the mover's own king out of
check — in particular no returned move leaves the mover in check. -/
theorem claim_C4_legal_moves (g : GameState) (pos : Position) (p : Position) :
    p ∈ GetPossibleMoves g pos ↔
      (IsValidBoardPosition pos = true ∧
        bget g.Board pos.Y pos.X ≠ Empty ∧
        ¬((g.CurrentTurn = WhitePlayer ∧ IsPieceWhite (bget g.Board pos.Y pos.X) = false) ∨
          (g.CurrentTurn = BlackPlayer ∧ IsPieceBlack (bget g.Board pos.Y pos.X) = false)) ∧
        p ∈ pseudoTargets g pos ∧
        IsInCheck (simulateMove g.Board pos p) g.CurrentTurn = false) := by
  simp only [GetPossibleMoves]
  split_ifs with h1 h2 h3 hk
  · exact ⟨fun hmem => absurd hmem (List.not_mem_nil p), fun hrhs => absurd h2 hrhs.2.1⟩
  · exact ⟨fun hmem => absurd hmem (List.not_mem_nil p), fun hrhs => absurd h3 hrhs.2.2.1⟩
  · have hp : pseudoTargets g pos = GetPieceMovesWithGameState g.Board pos g := by
      unfold pseudoTargets; rw [if_pos hk]
    simp only [List.mem_filter, Bool.not_eq_true', hp]
    exact ⟨fun hm => ⟨h1, h2, h3, hm.1, hm.2⟩, fun hr => ⟨hr.2.2.2.1, hr.2.2.2.2⟩⟩
  · have hp : pseudoTargets g pos = GetPieceMoves g.Board pos := by
      unfold pseudoTargets; rw [if_neg hk]
    simp only [List.mem_filter, Bool.not_eq_true', hp]
    exact ⟨fun hm => ⟨h1, h2, h3, hm.1, hm.2⟩, fun hr => ⟨hr.2.2.2.1, hr.2.2.2.2⟩⟩
  · exact ⟨fun hmem => absurd hmem (List.not_mem_nil p), fun hrhs => absurd hrhs.1 h1⟩

/-- C4 witness: the characterization instantiated on the pinned-rook
board confirms membership of the forward rook move e2–e3. -/
theorem claim_C4_legal_moves_witness :
    ⟨4, 2⟩ ∈ GetPossibleMoves (stateOfBoard pinBoard) ⟨4, 1⟩ := by
  refine (claim_C4_legal_moves (stateOfBoard pinBoard) ⟨4, 1⟩ ⟨4, 2⟩).mpr ?_
  decide

/-! ### C5: the castling augmentation -/

theorem castle_append_opt (m : List Position) (q : Position) (A E : Prop)
    [Decidable A] [Decidable E] :
    (if A then (if E then m ++ [q] else m) else m) = m ++ (if A ∧ E then [q] else []) := by
  by_cases hA : A
  · by_cases hE : E
    · rw [if_pos hA, if_pos hE, if_pos ⟨hA, hE⟩]
    · rw [if_pos hA, if_neg hE, if_neg (fun h => hE h.2), List.append_nil]
  · rw [if_neg hA, if_neg (fun h => hA h.1), List.append_nil]

theorem kingCastling_decomp (board : Board) (pos : Position) (g : GameState) :
    GetKingMovesWithCastling board pos g =
      getKingMoves board pos ++
        (if IsPieceWhite (bget board pos.Y pos.X) = true then
          (if g.WhiteKingMoved = false ∧ g.WhiteRookAMoved = false ∧
              bget board 0 1 = Empty ∧ bget board 0 2 = Empty ∧ bget board 0 3 = Empty then
            ([⟨2, 0⟩] : List Position) else []) ++
          (if g.WhiteKingMoved = false ∧ g.WhiteRookHMoved = false ∧
              bget board 0 5 = Empty ∧ bget board 0 6 = Empty then
            ([⟨6, 0⟩] : List Position) else [])
        else
          (if g.BlackKingMoved = false ∧ g.BlackRookAMoved = false ∧
              bget board 7 1 = Empty ∧ bget board 7 2 = Empty ∧ bget board 7 3 = Empty then
            ([⟨2, 7⟩] : List Position) else []) ++
          (if g.BlackKingMoved = false ∧ g.BlackRookHMoved = false ∧
              bget board 7 5 = Empty ∧ bget board 7 6 = Empty then
            ([⟨6, 7⟩] : List Position) else [])) := by
  simp only [GetKingMovesWithCastling]
  by_cases hw : IsPieceWhite (bget board pos.Y pos.X) = true
  · rw [if_pos hw, if_pos hw, castle_append_opt, castle_append_opt, List.append_assoc]
    congr 1
    congr 1
    · exact if_congr (by constructor <;> (intro h; tauto)) rfl rfl
    · exact if_congr (by constructor <;> (intro h; tauto)) rfl rfl
  · rw [if_neg hw, if_neg hw, castle_append_opt, castle_append_opt, List.append_assoc]
    congr 1
    congr 1
    · exact if_congr (by constructor <;> (intro h; tauto)) rfl rfl
    · exact if_congr (by constructor <;> (intro h; tauto)) rfl rfl

/-- C5: on a king-bearing square the castling augmentation appends the
queen-side destination exactly when the king-moved and queen-side
rook-moved flags are clear and the three squares between are empty, and
the king-side destination exactly when those flags are clear and the
two squares between are empty; no attacked-square condition of any kind
is consulted. -/
theorem claim_C5_castling_augmentation (board : Board) (pos : Position) (g : GameState)
    (_hk : bget board pos.Y pos.X = WhiteKing ∨ bget board pos.Y pos.X = BlackKing) :
    GetKingMovesWithCastling board pos g =
      getKingMoves board pos ++
        (if IsPieceWhite (bget board pos.Y pos.X) = true then
          (if g.WhiteKingMoved = false ∧ g.WhiteRookAMoved = false ∧
              bget board 0 1 = Empty ∧ bget board 0 2 = Empty ∧ bget board 0 3 = Empty then
            ([⟨2, 0⟩] : List Position) else []) ++
          (if g.WhiteKingMoved = false ∧ g.WhiteRookHMoved = false ∧
              bget board 0 5 = Empty ∧ bget board 0 6 = Empty then
            ([⟨6, 0⟩] : List Position) else [])
        else
          (if g.BlackKingMoved = false ∧ g.BlackRookAMoved = false ∧
              bget board 7 1 = Empty ∧ bget board 7 2 = Empty ∧ bget board 7 3 = Empty then
            ([⟨2, 7⟩] : List Position) else []) ++
          (if g.BlackKingMoved = false ∧ g.BlackRookHMoved = false ∧
              bget board 7 5 = Empty ∧ bget board 7 6 = Empty then
            ([⟨6, 7⟩] : List Position) else [])) :=
  kingCastling_decomp board pos g

/-- C5 witness: on the castling board both augmentations fire (the
code checks only flags and emptiness, never whether a rook is actually
present on a1). -/
theorem claim_C5_castling_augmentation_witness :
    (bget castleBoard 0 4 = WhiteKing ∨ bget castleBoard 0 4 = BlackKing) ∧
    GetKingMovesWithCastling castleBoard ⟨4, 0⟩ (stateOfBoard castleBoard) =
      getKingMoves castleBoard ⟨4, 0⟩ ++ ([⟨2, 0⟩] ++ [⟨6, 0⟩]) := by
  refine ⟨Or.inl (by decide), ?_⟩
  rw [claim_C5_castling_augmentation castleBoard ⟨4, 0⟩ (stateOfBoard castleBoard)
    (Or.inl (by decide))]
  decide

/-- C1 counterexample: the pinned-rook move e2–f2 is *not* in the
check-filtered `GetPossibleMoves` set, yet `MakeMove` does not return
`InvalidMove` — it validates against pseudo-moves only, refuting the
claim that `to ∉ legalMoves(from)` forces `Invalid`. -/
theorem claim_C1_counterexample :
    (MakeMove (stateOfBoard pinBoard) 0 ⟨4, 1⟩ ⟨5, 1⟩).2 ≠ MoveResult.InvalidMove ∧
    ⟨5, 1⟩ ∉ GetPossibleMoves (stateOfBoard pinBoard) ⟨4, 1⟩ := by decide

/-- C1 witness: the amended characterization applied at an
out-of-range source square. -/
theorem claim_C1_invalid_iff_witness :
    (MakeMove (stateOfBoard pinBoard) 0 ⟨9, 0⟩ ⟨0, 0⟩).2 = MoveResult.InvalidMove :=
  (claim_C1_invalid_iff (stateOfBoard pinBoard) 0 ⟨9, 0⟩ ⟨0, 0⟩).1.mpr (Or.inl (by decide))

/-! ### Membership facts about the pseudo-move generators -/

theorem mk_ne_pos {pos : Position} {a c : Int} (h : ¬(a = pos.X ∧ c = pos.Y)) :
    (⟨a, c⟩ : Position) ≠ pos := by
  intro he
  exact h ⟨congrArg Position.X he, congrArg Position.Y he⟩

/-- Every move produced by the shared offset-fold of `getKnightMoves`
and `getKingMoves` is an offset of the source square landing on an
empty or enemy square. -/
theorem mem_offsetMoves {b : Board} {pos : Position} {isW : Bool} :
    ∀ (offs : List Position) (p : Position),
      p ∈ offs.foldr
        (fun d acc =>
          let newPos : Position := ⟨pos.X + d.X, pos.Y + d.Y⟩
          if IsValidBoardPosition newPos = true then
            let targetPiece := bget b newPos.Y newPos.X
            if targetPiece = Empty ∨ isW ≠ IsPieceWhite targetPiece then newPos :: acc
            else acc
          else acc) [] →
      ∃ d ∈ offs, p = ⟨pos.X + d.X, pos.Y + d.Y⟩ ∧
        (bget b p.Y p.X = Empty ∨ isW ≠ IsPieceWhite (bget b p.Y p.X))
  | [], p, h => absurd h (List.not_mem_nil p)
  | d :: offs, p, h => by
    simp only [List.foldr_cons] at h
    split_ifs at h with h1 h2
    · rcases List.mem_cons.mp h with rfl | h
      · exact ⟨d, List.mem_cons_self d offs, rfl, h2⟩
      · obtain ⟨d', hd', hp, hc⟩ := mem_offsetMoves offs p h
        exact ⟨d', List.mem_cons_of_mem d hd', hp, hc⟩
    · obtain ⟨d', hd', hp, hc⟩ := mem_offsetMoves offs p h
      exact ⟨d', List.mem_cons_of_mem d hd', hp, hc⟩
    · obtain ⟨d', hd', hp, hc⟩ := mem_offsetMoves offs p h
      exact ⟨d', List.mem_cons_of_mem d hd', hp, hc⟩

/-- Every move on a ray is a positive multiple of the direction away
from the source, landing on an empty or enemy square. -/
theorem mem_rayMoves {b : Board} {pos : Position} {isW : Bool} {d : Position} :
    ∀ {fuel : Nat} {i : Int}, 0 < i → ∀ {p : Position}, p ∈ rayMoves b pos isW d fuel i →
      (∃ k : Int, 0 < k ∧ p = ⟨pos.X + k * d.X, pos.Y + k * d.Y⟩) ∧
      (bget b p.Y p.X = Empty ∨ isW ≠ IsPieceWhite (bget b p.Y p.X)) := by
  intro fuel
  induction fuel with
  | zero => intro i hi p h; exact absurd h (List.not_mem_nil p)
  | succ n ih =>
    intro i hi p h
    simp only [rayMoves] at h
    split_ifs at h with h1 h2 h3
    · rcases List.mem_cons.mp h with rfl | h
      · exact ⟨⟨i, hi, rfl⟩, Or.inl h2⟩
      · exact ih (by omega) h
    · rcases List.mem_singleton.mp h with rfl
      exact ⟨⟨i, hi, rfl⟩, Or.inr h3⟩
    · exact absurd h (List.not_mem_nil p)
    · exact absurd h (List.not_mem_nil p)

theorem offset_target_ne {pos : Position} {d : Position} (hd : ¬(d.X = 0 ∧ d.Y = 0)) :
    (⟨pos.X + d.X, pos.Y + d.Y⟩ : Position) ≠ pos := by
  apply mk_ne_pos
  intro hc
  exact hd ⟨by linarith [hc.1], by linarith [hc.2]⟩

theorem ray_target_ne {pos : Position} {d : Position} {k : Int} (hk : 0 < k)
    (hd : ¬(d.X = 0 ∧ d.Y = 0)) :
    (⟨pos.X + k * d.X, pos.Y + k * d.Y⟩ : Position) ≠ pos := by
  apply mk_ne_pos
  intro hc
  have hx : k * d.X = 0 := by linarith [hc.1]
  have hy : k * d.Y = 0 := by linarith [hc.2]
  rcases mul_eq_zero.mp hx with h | h
  · omega
  · rcases mul_eq_zero.mp hy with h' | h'
    · omega
    · exact hd ⟨h, h'⟩

theorem mem_getPawnMoves {b : Board} {pos p : Position} (h : p ∈ getPawnMoves b pos) :
    p ≠ pos ∧ (bget b p.Y p.X = Empty ∨
      IsPieceWhite (bget b p.Y p.X) ≠ IsPieceWhite (bget b pos.Y pos.X)) := by
  simp only [getPawnMoves, List.mem_append, List.foldr_cons, List.foldr_nil] at h
  rcases h with h | h
  · split_ifs at h
    all_goals first
      | exact absurd h (List.not_mem_nil p)
      | (simp only [List.mem_append, List.mem_cons, List.mem_singleton, List.not_mem_nil,
           or_false] at h;
         rcases h with rfl | rfl <;> exact ⟨mk_ne_pos (by omega), Or.inl (by simp_all)⟩)
  · split_ifs at h
    all_goals first
      | exact absurd h (List.not_mem_nil p)
      | (simp only [List.mem_append, List.mem_cons, List.mem_singleton, List.not_mem_nil,
           or_false] at h;
         rcases h with rfl | rfl <;> exact ⟨mk_ne_pos (by omega), Or.inr (Ne.symm (by simp_all))⟩)

theorem mem_getKnightMoves {b : Board} {pos p : Position} (h : p ∈ getKnightMoves b pos) :
    p ≠ pos ∧ (bget b p.Y p.X = Empty ∨
      IsPieceWhite (bget b p.Y p.X) ≠ IsPieceWhite (bget b pos.Y pos.X)) := by
  simp only [getKnightMoves] at h
  obtain ⟨d, hd, hp, hc⟩ := mem_offsetMoves knightOffsets p h
  have hdnz : ¬(d.X = 0 ∧ d.Y = 0) := by fin_cases hd <;> decide
  subst hp
  exact ⟨offset_target_ne hdnz, Or.imp id Ne.symm hc⟩

theorem mem_getKingMoves {b : Board} {pos p : Position} (h : p ∈ getKingMoves b pos) :
    p ≠ pos ∧ (bget b p.Y p.X = Empty ∨
      IsPieceWhite (bget b p.Y p.X) ≠ IsPieceWhite (bget b pos.Y pos.X)) := by
  simp only [getKingMoves] at h
  obtain ⟨d, hd, hp, hc⟩ := mem_offsetMoves kingOffsets p h
  have hdnz : ¬(d.X = 0 ∧ d.Y = 0) := by fin_cases hd <;> decide
  subst hp
  exact ⟨offset_target_ne hdnz, Or.imp id Ne.symm hc⟩

theorem mem_getBishopMoves {b : Board} {pos p : Position} (h : p ∈ getBishopMoves b pos) :
    p ≠ pos ∧ (bget b p.Y p.X = Empty ∨
      IsPieceWhite (bget b p.Y p.X) ≠ IsPieceWhite (bget b pos.Y pos.X)) := by
  simp only [getBishopMoves, List.foldr_cons, List.foldr_nil, List.append_nil,
    List.mem_append] at h
  rcases h with h | h | h | h <;>
  · obtain ⟨⟨k, hk, hp⟩, hc⟩ := mem_rayMoves (by norm_num) h
    subst hp
    exact ⟨ray_target_ne hk (by decide), Or.imp id Ne.symm hc⟩

theorem mem_getRookMoves {b : Board} {pos p : Position} (h : p ∈ getRookMoves b pos) :
    p ≠ pos ∧ (bget b p.Y p.X = Empty ∨
      IsPieceWhite (bget b p.Y p.X) ≠ IsPieceWhite (bget b pos.Y pos.X)) := by
  simp only [getRookMoves, List.foldr_cons, List.foldr_nil, List.append_nil,
    List.mem_append] at h
  rcases h with h | h | h | h <;>
  · obtain ⟨⟨k, hk, hp⟩, hc⟩ := mem_rayMoves (by norm_num) h
    subst hp
    exact ⟨ray_target_ne hk (by decide), Or.imp id Ne.symm hc⟩

theorem mem_getQueenMoves {b : Board} {pos p : Position} (h : p ∈ getQueenMoves b pos) :
    p ≠ pos ∧ (bget b p.Y p.X = Empty ∨
      IsPieceWhite (bget b p.Y p.X) ≠ IsPieceWhite (bget b pos.Y pos.X)) := by
  rcases List.mem_append.mp h with h | h
  · exact mem_getBishopMoves h
  · exact mem_getRookMoves h

theorem mem_GetPieceMoves {b : Board} {pos p : Position} (h : p ∈ GetPieceMoves b pos) :
    p ≠ pos ∧ (bget b p.Y p.X = Empty ∨
      IsPieceWhite (bget b p.Y p.X) ≠ IsPieceWhite (bget b pos.Y pos.X)) := by
  simp only [GetPieceMoves] at h
  split_ifs at h
  exacts [mem_getPawnMoves h, mem_getKnightMoves h, mem_getBishopMoves h, mem_getRookMoves h,
    mem_getQueenMoves h, mem_getKingMoves h, absurd h (List.not_mem_nil p)]

theorem mem_GetKingMovesWithCastling {b : Board} {pos p : Position} {g : GameState}
    (hne : bget b pos.Y pos.X ≠ Empty) (h : p ∈ GetKingMovesWithCastling b pos g) :
    p ≠ pos ∧ (bget b p.Y p.X = Empty ∨
      IsPieceWhite (bget b p.Y p.X) ≠ IsPieceWhite (bget b pos.Y pos.X)) := by
  rw [kingCastling_decomp] at h
  rcases List.mem_append.mp h with h | h
  · exact mem_getKingMoves h
  · split_ifs at h
    all_goals first
      | (simp only [List.mem_append, List.mem_singleton, List.not_mem_nil, or_false,
           false_or] at h;
         rcases h with rfl | rfl <;>
           exact ⟨fun he => hne (by rw [← he]; simp_all), Or.inl (by simp_all)⟩)
      | simp only [List.mem_append, List.not_mem_nil, or_false] at h

theorem mem_pseudoTargets {g : GameState} {src dst : Position}
    (h : dst ∈ pseudoTargets g src) :
    dst ≠ src ∧ (bget g.Board dst.Y dst.X = Empty ∨
      IsPieceWhite (bget g.Board dst.Y dst.X) ≠ IsPieceWhite (bget g.Board src.Y src.X)) := by
  simp only [pseudoTargets] at h
  split_ifs at h with hk
  · simp only [GetPieceMovesWithGameState] at h
    rw [if_pos hk] at h
    refine mem_GetKingMovesWithCastling ?_ h
    rcases hk with hk | hk <;> rw [hk] <;> decide
  · exact mem_GetPieceMoves h

/-! ### C8: click-to-move selection -/

/-- C8: `SelectPosition` is click-to-move: a click on a square holding
a piece of the side to move arms (or re-arms) the selection and returns
`true`; with a selection armed, any other click attempts the move from
the selected square to the clicked one, clears the selection whatever
the outcome, and returns `true` exactly when that move is not
`InvalidMove` (an out-of-range click behaves identically, since the
attempted move is a no-op `InvalidMove`). -/
theorem claim_C8_select_position (g : GameState) (now : Int) (pos : Position) :
    (IsValidBoardPosition pos = true →
      bget g.Board pos.Y pos.X ≠ Empty →
      ((g.CurrentTurn = WhitePlayer ∧ IsPieceWhite (bget g.Board pos.Y pos.X) = true) ∨
        (g.CurrentTurn = BlackPlayer ∧ IsPieceBlack (bget g.Board pos.Y pos.X) = true)) →
      SelectPosition g now pos = ({ g with SelectedPosition := some ⟨pos.X, pos.Y⟩ }, true)) ∧
    (∀ sel, g.SelectedPosition = some sel →
      ¬(IsValidBoardPosition pos = true ∧ bget g.Board pos.Y pos.X ≠ Empty ∧
        ((g.CurrentTurn = WhitePlayer ∧ IsPieceWhite (bget g.Board pos.Y pos.X) = true) ∨
          (g.CurrentTurn = BlackPlayer ∧ IsPieceBlack (bget g.Board pos.Y pos.X) = true))) →
      SelectPosition g now pos =
        ({ (MakeMove g now sel pos).1 with SelectedPosition := none },
          decide ((MakeMove g now sel pos).2 ≠ MoveResult.InvalidMove))) := by
  constructor
  · intro hv hne hown
    simp only [SelectPosition]
    rw [if_neg (not_not_intro hv), if_pos ⟨hne, hown⟩]
  · intro sel hsel hn
    by_cases hv : IsValidBoardPosition pos = true
    · have harm : ¬(bget g.Board pos.Y pos.X ≠ Empty ∧
          ((g.CurrentTurn = WhitePlayer ∧ IsPieceWhite (bget g.Board pos.Y pos.X) = true) ∨
            (g.CurrentTurn = BlackPlayer ∧ IsPieceBlack (bget g.Board pos.Y pos.X) = true))) :=
        fun hc => hn ⟨hv, hc.1, hc.2⟩
      simp only [SelectPosition]
      rw [if_neg (not_not_intro hv), if_neg harm, hsel]
    · have hmm : MakeMove g now sel pos = (g, MoveResult.InvalidMove) :=
        MakeMove_eq_invalid_of (Or.inl (fun hc => hv hc.2))
      simp only [SelectPosition]
      rw [if_pos hv, hmm]
      simp

/-- C8 witness: clicking the own rook on e2 arms the selection. -/
theorem claim_C8_select_position_witness :
    SelectPosition (stateOfBoard pinBoard) 0 ⟨4, 1⟩ =
      ({ stateOfBoard pinBoard with SelectedPosition := some ⟨4, 1⟩ }, true) :=
  (claim_C8_select_position (stateOfBoard pinBoard) 0 ⟨4, 1⟩).1 (by decide) (by decide)
    (by decide)

/-! ### The effect of a successful `MakeMove` -/

/-- The board produced by the execution tail of `MakeMove`: optional
rook relocation, then destination write, then source cleared. -/
def moveBoard (g : GameState) (src dst : Position) : Board :=
  bset (bset (castleRookApply g.Board (bget g.Board src.Y src.X) src dst) dst.Y dst.X
    (bget g.Board src.Y src.X)) src.Y src.X Empty

/-- The `isCheck` flag `MakeMove` computes for the new side to move. -/
def postCheck (g : GameState) (src dst : Position) : Bool :=
  IsInCheck (moveBoard g src dst) (1 - g.CurrentTurn)

/-- The `isCheckmate` flag `MakeMove` computes. -/
def postCheckmate (g : GameState) (src dst : Position) : Bool :=
  if postCheck g src dst = true then IsCheckmate (moveBoard g src dst) (1 - g.CurrentTurn)
  else false

/-- The `isCastling` flag of `MakeMove`: a king moving exactly two
files. -/
def castleShape (piece : Int) (src dst : Position) : Bool :=
  decide ((piece = WhiteKing ∨ piece = BlackKing) ∧ (dst.X - src.X = 2 ∨ src.X - dst.X = 2))

/-- The history record a successful `MakeMove` appends. -/
def recordedMove (g : GameState) (src dst : Position) : Move :=
  { From := src, To := dst, Piece := bget g.Board src.Y src.X,
    Captured := bget g.Board dst.Y dst.X, Promotion := 0,
    Check := postCheck g src dst, Checkmate := postCheckmate g src dst,
    Castling := castleShape (bget g.Board src.Y src.X) src dst }

theorem MakeMove_success_guards {g : GameState} {now : Int} {src dst : Position}
    (h : (MakeMove g now src dst).2 ≠ MoveResult.InvalidMove) :
    (IsValidBoardPosition src = true ∧ IsValidBoardPosition dst = true) ∧
    bget g.Board src.Y src.X ≠ Empty ∧
    ¬((g.CurrentTurn = WhitePlayer ∧ IsPieceWhite (bget g.Board src.Y src.X) = false) ∨
      (g.CurrentTurn = BlackPlayer ∧ IsPieceBlack (bget g.Board src.Y src.X) = false)) ∧
    dst ∈ pseudoTargets g src ∧
    MakeMove g now src dst = makeMoveExec g now src dst := by
  by_cases hA : IsValidBoardPosition src = true ∧ IsValidBoardPosition dst = true
  case neg => rw [MakeMove_eq_invalid_of (Or.inl hA)] at h; exact absurd rfl h
  case pos =>
  by_cases hB : bget g.Board src.Y src.X = Empty
  case pos => rw [MakeMove_eq_invalid_of (Or.inr (Or.inl hB))] at h; exact absurd rfl h
  case neg =>
  by_cases hC : ((g.CurrentTurn = WhitePlayer ∧ IsPieceWhite (bget g.Board src.Y src.X) = false) ∨
      (g.CurrentTurn = BlackPlayer ∧ IsPieceBlack (bget g.Board src.Y src.X) = false))
  case pos => rw [MakeMove_eq_invalid_of (Or.inr (Or.inr (Or.inl hC)))] at h; exact absurd rfl h
  case neg =>
  by_cases hD : dst ∈ pseudoTargets g src
  case neg => rw [MakeMove_eq_invalid_of (Or.inr (Or.inr (Or.inr hD)))] at h; exact absurd rfl h
  case pos => exact ⟨hA, hB, hC, hD, MakeMove_eq_exec hA hB hC hD⟩

theorem makeMoveExec_spec (g : GameState) (now : Int) (src dst : Position) :
    (makeMoveExec g now src dst).1.Board = moveBoard g src dst ∧
    (makeMoveExec g now src dst).1.CurrentTurn = 1 - g.CurrentTurn ∧
    (makeMoveExec g now src dst).1.MoveHistory = g.MoveHistory ++ [recordedMove g src dst] ∧
    (postCheckmate g src dst = true →
      (makeMoveExec g now src dst).2 = MoveResult.Checkmate ∧
      (makeMoveExec g now src dst).1.GameStatus =
        (if 1 - g.CurrentTurn = WhitePlayer then GameStatus.BlackWon else GameStatus.WhiteWon) ∧
      (makeMoveExec g now src dst).1.WhitePlayerTime = g.WhitePlayerTime ∧
      (makeMoveExec g now src dst).1.BlackPlayerTime = g.BlackPlayerTime) ∧
    (postCheckmate g src dst = false →
      IsStalemate (moveBoard g src dst) (1 - g.CurrentTurn) = true →
      (makeMoveExec g now src dst).2 = MoveResult.Stalemate ∧
      (makeMoveExec g now src dst).1.GameStatus = GameStatus.GameDraw ∧
      (makeMoveExec g now src dst).1.WhitePlayerTime = g.WhitePlayerTime ∧
      (makeMoveExec g now src dst).1.BlackPlayerTime = g.BlackPlayerTime) ∧
    (postCheckmate g src dst = false →
      IsStalemate (moveBoard g src dst) (1 - g.CurrentTurn) = false →
      (makeMoveExec g now src dst).2 =
        (if postCheck g src dst = true then MoveResult.Check
          else if castleShape (bget g.Board src.Y src.X) src dst = true then MoveResult.Castling
          else MoveResult.ValidMove) ∧
      (makeMoveExec g now src dst).1.GameStatus = g.GameStatus ∧
      (makeMoveExec g now src dst).1.LastMoveTime = now ∧
      (g.TimerActive = true →
        (1 - g.CurrentTurn = WhitePlayer →
          (makeMoveExec g now src dst).1.BlackPlayerTime =
            g.BlackPlayerTime - (now - g.LastMoveTime) ∧
          (makeMoveExec g now src dst).1.WhitePlayerTime = g.WhitePlayerTime) ∧
        (¬(1 - g.CurrentTurn = WhitePlayer) →
          (makeMoveExec g now src dst).1.WhitePlayerTime =
            g.WhitePlayerTime - (now - g.LastMoveTime) ∧
          (makeMoveExec g now src dst).1.BlackPlayerTime = g.BlackPlayerTime)) ∧
      (g.TimerActive = false →
        (makeMoveExec g now src dst).1.WhitePlayerTime = g.WhitePlayerTime ∧
        (makeMoveExec g now src dst).1.BlackPlayerTime = g.BlackPlayerTime)) := by
  simp only [makeMoveExec, applyMovedFlags_Board, applyMovedFlags_CurrentTurn,
    applyMovedFlags_MoveHistory, applyMovedFlags_GameStatus, applyMovedFlags_WhitePlayerTime,
    applyMovedFlags_BlackPlayerTime, applyMovedFlags_LastMoveTime, applyMovedFlags_TimerActive,
    postCheckmate, postCheck, moveBoard, castleShape, recordedMove]
  split_ifs <;>
    simp_all [timerApply_WhitePlayerTime, timerApply_BlackPlayerTime]

/-! ### C9: every move the AI selects is a legal move -/

theorem mem_getAllPossibleMoves {g : GameState} {color : Int} {m : AIMove}
    (h : m ∈ getAllPossibleMoves g color) :
    m.To ∈ GetPossibleMoves g m.From := by
  simp only [getAllPossibleMoves, List.mem_flatMap] at h
  obtain ⟨pos, hpos, hm⟩ := h
  split_ifs at hm
  · exact absurd hm (List.not_mem_nil m)
  · exact absurd hm (List.not_mem_nil m)
  · obtain ⟨mp, hmp, hmm⟩ := List.mem_map.mp hm
    subst hmm
    exact hmp

theorem mem_map_fromTo {f : AIMove → AIMove}
    (hf : ∀ m, (f m).From = m.From ∧ (f m).To = m.To) {l : List AIMove} {m : AIMove}
    (h : m ∈ l.map f) : ∃ o ∈ l, m.From = o.From ∧ m.To = o.To := by
  obtain ⟨o, ho, hfo⟩ := List.mem_map.mp h
  exact ⟨o, ho, hfo ▸ (hf o).1, hfo ▸ (hf o).2⟩

theorem rescoreEasy_fromTo (ai : ChessAI) (g : GameState) (m : AIMove) :
    (rescoreEasy ai g m).From = m.From ∧ (rescoreEasy ai g m).To = m.To := ⟨rfl, rfl⟩

theorem rescoreMedium_fromTo (ai : ChessAI) (g : GameState) (m : AIMove) :
    (rescoreMedium ai g m).From = m.From ∧ (rescoreMedium ai g m).To = m.To := ⟨rfl, rfl⟩

theorem rescoreHard_fromTo (ai : ChessAI) (g : GameState) (m : AIMove) :
    (rescoreHard ai g m).From = m.From ∧ (rescoreHard ai g m).To = m.To := ⟨rfl, rfl⟩

theorem getD_mem_of_lt {l : List AIMove} {i : Nat} (h : i < l.length) :
    l.getD i default ∈ l := by
  rw [List.getD_eq_getElem l default h]
  exact List.getElem_mem h

theorem sortSwap_length (l : List AIMove) (i j : Nat) :
    (sortSwap l i j).length = l.length := by
  unfold sortSwap; split_ifs <;> simp [List.length_set]

theorem sortSwap_sub {l : List AIMove} {i j : Nat} (hi : i < l.length) (hj : j < l.length) :
    ∀ m ∈ sortSwap l i j, m ∈ l := by
  intro m hm
  unfold sortSwap at hm
  split_ifs at hm
  · rcases List.mem_or_eq_of_mem_set hm with hm1 | rfl
    · rcases List.mem_or_eq_of_mem_set hm1 with hm2 | rfl
      · exact hm2
      · exact getD_mem_of_lt hj
    · exact getD_mem_of_lt hi
  · exact hm

theorem inner_fold_sub (i : Nat) (l0 : List AIMove) :
    ∀ (js : List Nat) (acc : List AIMove), acc.length = l0.length →
      (∀ m ∈ acc, m ∈ l0) → (∀ j ∈ js, j < l0.length) → i < l0.length →
      ((js.foldl (fun acc2 j => sortSwap acc2 i j) acc).length = l0.length ∧
        ∀ m ∈ js.foldl (fun acc2 j => sortSwap acc2 i j) acc, m ∈ l0)
  | [], acc, hlen, hsub, _, _ => ⟨hlen, hsub⟩
  | j :: js, acc, hlen, hsub, hjs, hi => by
    simp only [List.foldl_cons]
    refine inner_fold_sub i l0 js (sortSwap acc i j) ?_ ?_ ?_ hi
    · rw [sortSwap_length]; exact hlen
    · intro m hm
      exact hsub m (sortSwap_sub (hlen ▸ hi) (hlen ▸ hjs j (List.mem_cons_self j js)) m hm)
    · intro j' hj'
      exact hjs j' (List.mem_cons_of_mem j hj')

theorem outer_fold_sub (l0 : List AIMove) :
    ∀ (is' : List Nat) (acc : List AIMove), acc.length = l0.length →
      (∀ m ∈ acc, m ∈ l0) → (∀ i ∈ is', i < l0.length) →
      ((is'.foldl
          (fun acc i =>
            (List.range' (i + 1) (l0.length - (i + 1))).foldl
              (fun acc2 j => sortSwap acc2 i j) acc) acc).length = l0.length ∧
        ∀ m ∈ is'.foldl
          (fun acc i =>
            (List.range' (i + 1) (l0.length - (i + 1))).foldl
              (fun acc2 j => sortSwap acc2 i j) acc) acc, m ∈ l0)
  | [], acc, hlen, hsub, _ => ⟨hlen, hsub⟩
  | i :: is', acc, hlen, hsub, his => by
    simp only [List.foldl_cons]
    have hi : i < l0.length := his i (List.mem_cons_self i is')
    have hinner := inner_fold_sub i l0 (List.range' (i + 1) (l0.length - (i + 1))) acc hlen hsub
      (fun j hj => by
        have := List.mem_range'_1.mp hj
        omega) hi
    refine outer_fold_sub l0 is' _ hinner.1 hinner.2 ?_
    intro i' hi'
    exact his i' (List.mem_cons_of_mem i hi')

theorem sortMovesByScore_sub (l : List AIMove) :
    (sortMovesByScore l).length = l.length ∧ ∀ m ∈ sortMovesByScore l, m ∈ l := by
  unfold sortMovesByScore
  refine outer_fold_sub l (List.range (l.length - 1)) l rfl (fun m hm => hm) ?_
  intro i hi
  have := List.mem_range.mp hi
  omega

theorem foldl_best_mem :
    ∀ (rest : List AIMove) (acc : AIMove),
      rest.foldl (fun bestMove move => if bestMove.Score < move.Score then move else bestMove)
        acc = acc ∨
      rest.foldl (fun bestMove move => if bestMove.Score < move.Score then move else bestMove)
        acc ∈ rest
  | [], _ => Or.inl rfl
  | m :: ms, acc => by
    simp only [List.foldl_cons]
    rcases foldl_best_mem ms (if acc.Score < m.Score then m else acc) with h | h
    · rw [h]
      split_ifs
      · exact Or.inr (List.mem_cons_self m ms)
      · exact Or.inl rfl
    · exact Or.inr (List.mem_cons_of_mem m h)

theorem getRandomMove_fromTo (ai : ChessAI) (g : GameState) (rnd : Nat)
    {moves : List AIMove} (hne : moves ≠ []) :
    ∃ o ∈ moves, (getRandomMove ai g rnd moves).From = o.From ∧
      (getRandomMove ai g rnd moves).To = o.To := by
  have hml : 0 < moves.length := List.length_pos.mpr hne
  have hsl : (moves.map (rescoreEasy ai g)).length = moves.length :=
    List.length_map moves (rescoreEasy ai g)
  simp only [getRandomMove]
  split_ifs with h1 h2 h3
  · exact mem_map_fromTo (rescoreEasy_fromTo ai g)
      (List.mem_of_mem_filter (getD_mem_of_lt (Nat.mod_lt rnd h1)))
  · exact mem_map_fromTo (rescoreEasy_fromTo ai g)
      (List.mem_of_mem_filter (getD_mem_of_lt (Nat.mod_lt rnd h2)))
  · exact mem_map_fromTo (rescoreEasy_fromTo ai g)
      (List.mem_of_mem_filter (getD_mem_of_lt (Nat.mod_lt rnd h3)))
  · exact mem_map_fromTo (rescoreEasy_fromTo ai g)
      (getD_mem_of_lt (Nat.mod_lt rnd (by omega)))

theorem getMediumMove_fromTo (ai : ChessAI) (g : GameState) (rnd : Nat)
    {moves : List AIMove} (hne : moves ≠ []) :
    ∃ o ∈ moves, (getMediumMove ai g rnd moves).From = o.From ∧
      (getMediumMove ai g rnd moves).To = o.To := by
  have hml : 0 < moves.length := List.length_pos.mpr hne
  have hsl : (moves.map (rescoreMedium ai g)).length = moves.length :=
    List.length_map moves (rescoreMedium ai g)
  simp only [getMediumMove]
  obtain ⟨hslen, hssub⟩ := sortMovesByScore_sub (moves.map (rescoreMedium ai g))
  have hidx : rnd % (if (moves.map (rescoreMedium ai g)).length < 3 then
      (moves.map (rescoreMedium ai g)).length else 3) <
      (sortMovesByScore (moves.map (rescoreMedium ai g))).length := by
    rw [hslen]
    split_ifs with h3
    · exact Nat.mod_lt rnd (by omega)
    · have : rnd % 3 < 3 := Nat.mod_lt rnd (by omega)
      omega
  exact mem_map_fromTo (rescoreMedium_fromTo ai g) (hssub _ (getD_mem_of_lt hidx))

theorem getHardMove_fromTo (ai : ChessAI) (g : GameState)
    {moves : List AIMove} (hne : moves ≠ []) :
    ∃ o ∈ moves, (getHardMove ai g moves).From = o.From ∧
      (getHardMove ai g moves).To = o.To := by
  simp only [getHardMove]
  cases hsc : moves.map (rescoreHard ai g) with
  | nil =>
    exact absurd (List.map_eq_nil_iff.mp hsc) hne
  | cons best rest =>
    have hmem : (rest.foldl
        (fun bestMove move => if bestMove.Score < move.Score then move else bestMove)
        best) ∈ best :: rest := by
      rcases foldl_best_mem rest best with h | h
      · rw [h]; exact List.mem_cons_self best rest
      · exact List.mem_cons_of_mem best h
    have hmem' : (rest.foldl
        (fun bestMove move => if bestMove.Score < move.Score then move else bestMove)
        best) ∈ moves.map (rescoreHard ai g) := by
      rw [hsc]; exact hmem
    exact mem_map_fromTo (rescoreHard_fromTo ai g) hmem'

/-- C9: the selector of `ChessAI.MakeMove` never submits an illegal
move: when the set of legal moves over all own-colour occupied squares
is empty (or it is not the AI's turn) it selects nothing, and any move
it does select, at every difficulty, has a destination drawn from
`GetPossibleMoves` of its source square on the same state. -/
theorem claim_C9_ai_selects_legal (ai : ChessAI) (g : GameState) (rnd : Nat) :
    (getAllPossibleMoves g
        (if ai.playerColor = WhitePlayer then BlackPlayer else WhitePlayer) = [] →
      ai.selectedMove g rnd = none) ∧
    (∀ m, ai.selectedMove g rnd = some m → m.To ∈ GetPossibleMoves g m.From) := by
  constructor
  · intro hempty
    simp only [ChessAI.selectedMove]
    set c := (if ai.playerColor = WhitePlayer then BlackPlayer else WhitePlayer) with hc
    split_ifs with h1 h2
    · rfl
    · rfl
    · rw [hempty] at h2
      simp at h2
  · intro m hm
    simp only [ChessAI.selectedMove] at hm
    set c := (if ai.playerColor = WhitePlayer then BlackPlayer else WhitePlayer) with hc
    split_ifs at hm with h1 h2 <;>
      first
        | exact Option.noConfusion hm
        | (have hne : getAllPossibleMoves g c ≠ [] := by
             intro hcon; rw [hcon] at h2; simp at h2;
           rw [Option.some_inj] at hm;
           subst hm;
           first
             | (obtain ⟨o, ho, hf, ht⟩ := getRandomMove_fromTo ai g rnd hne;
                rw [hf, ht]; exact mem_getAllPossibleMoves ho)
             | (obtain ⟨o, ho, hf, ht⟩ := getMediumMove_fromTo ai g rnd hne;
                rw [hf, ht]; exact mem_getAllPossibleMoves ho)
             | (obtain ⟨o, ho, hf, ht⟩ := getHardMove_fromTo ai g hne;
                rw [hf, ht]; exact mem_getAllPossibleMoves ho))

/-- Lone black king a8 against a white king h1, Black to move. -/
def aiBoard : Board := boardOfRows
  [[0, 0, 0, 0, 0, 0, 0, WhiteKing], [], [], [], [], [],
   [], [BlackKing, 0, 0, 0, 0, 0, 0, 0]]

/-- C9 witness: the Easy-tier selection for Black picks the king move
a8–a7, which the claim then places inside `GetPossibleMoves` of a8. -/
theorem claim_C9_ai_selects_legal_witness :
    (NewChessAI WhitePlayer 1).selectedMove
      { stateOfBoard aiBoard with CurrentTurn := BlackPlayer } 0 =
      some ⟨⟨0, 7⟩, ⟨0, 6⟩, BlackKing, 0, 0⟩ ∧
    (⟨0, 6⟩ : Position) ∈ GetPossibleMoves
      { stateOfBoard aiBoard with CurrentTurn := BlackPlayer } ⟨0, 7⟩ :=
  ⟨by decide,
    (claim_C9_ai_selects_legal (NewChessAI WhitePlayer 1)
      { stateOfBoard aiBoard with CurrentTurn := BlackPlayer } 0).2
      ⟨⟨0, 7⟩, ⟨0, 6⟩, BlackKing, 0, 0⟩ (by decide)⟩

/-! ### C10: a successful non-castle move rewrites exactly two squares -/

theorem pos_eq_of_coords {a b : Position} (hx : a.X = b.X) (hy : a.Y = b.Y) : a = b := by
  cases a; cases b; simp_all

/-- C10: a successful `MakeMove` that is not a castle changes the board
at exactly the two squares involved — the source becomes `Empty` and
the destination receives exactly the piece that stood on the source
(both squares genuinely change), every other square is untouched — and
the appended history record's `Promotion` field is its zero value: no
promotion ever occurs, a pawn reaching the last rank stays a pawn. -/
theorem claim_C10_noncastle_frame (g : GameState) (now : Int) (src dst : Position)
    (hs : (MakeMove g now src dst).2 ≠ MoveResult.InvalidMove)
    (hc : castleShape (bget g.Board src.Y src.X) src dst = false) :
    src ≠ dst ∧
    bget (MakeMove g now src dst).1.Board src.Y src.X = Empty ∧
    bget (MakeMove g now src dst).1.Board dst.Y dst.X = bget g.Board src.Y src.X ∧
    bget (MakeMove g now src dst).1.Board src.Y src.X ≠ bget g.Board src.Y src.X ∧
    bget (MakeMove g now src dst).1.Board dst.Y dst.X ≠ bget g.Board dst.Y dst.X ∧
    (∀ y x : Int, ¬(y = src.Y ∧ x = src.X) → ¬(y = dst.Y ∧ x = dst.X) →
      bget (MakeMove g now src dst).1.Board y x = bget g.Board y x) ∧
    ((MakeMove g now src dst).1.MoveHistory.getLastD default).Promotion = 0 := by
  obtain ⟨hA, hB, hC, hD, heq⟩ := MakeMove_success_guards hs
  rw [heq]
  obtain ⟨hBoard, hTurn, hHist, -, -, -⟩ := makeMoveExec_spec g now src dst
  obtain ⟨hds, htarget⟩ := mem_pseudoTargets hD
  have hrook : castleRookApply g.Board (bget g.Board src.Y src.X) src dst = g.Board :=
    castleRookApply_of_not_castle _ _ _ _
      (by simpa [castleShape, decide_eq_false_iff_not] using hc)
  have hBoard' : (makeMoveExec g now src dst).1.Board =
      bset (bset g.Board dst.Y dst.X (bget g.Board src.Y src.X)) src.Y src.X Empty := by
    rw [hBoard]; simp only [moveBoard, hrook]
  have hcoords : ¬(dst.Y = src.Y ∧ dst.X = src.X) :=
    fun hcc => hds (pos_eq_of_coords hcc.2 hcc.1)
  refine ⟨fun he => hds he.symm, ?_, ?_, ?_, ?_, ?_, ?_⟩
  · rw [hBoard']; exact bget_bset_same _ _ _ _
  · rw [hBoard', bget_bset, if_neg hcoords, bget_bset_same]
  · rw [hBoard', bget_bset_same]
    exact fun he2 => hB he2.symm
  · rw [hBoard', bget_bset, if_neg hcoords, bget_bset_same]
    rcases htarget with hEmp | hcol
    · rw [hEmp]; exact hB
    · exact fun he2 => hcol (congrArg IsPieceWhite he2.symm)
  · intro y x hys hxd
    rw [hBoard', bget_bset, if_neg hys, bget_bset, if_neg hxd]
  · rw [hHist, List.getLastD_concat]
    rfl

/-- C10 witness: the rook move e2–e3 on the pinned-rook board empties
e2 and records no promotion. -/
theorem claim_C10_noncastle_frame_witness :
    ((MakeMove (stateOfBoard pinBoard) 0 ⟨4, 1⟩ ⟨4, 2⟩).2 ≠ MoveResult.InvalidMove) ∧
    bget (MakeMove (stateOfBoard pinBoard) 0 ⟨4, 1⟩ ⟨4, 2⟩).1.Board 1 4 = Empty ∧
    ((MakeMove (stateOfBoard pinBoard) 0 ⟨4, 1⟩ ⟨4, 2⟩).1.MoveHistory.getLastD
      default).Promotion = 0 :=
  ⟨by decide,
    (claim_C10_noncastle_frame (stateOfBoard pinBoard) 0 ⟨4, 1⟩ ⟨4, 2⟩
      (by decide) (by decide)).2.1,
    (claim_C10_noncastle_frame (stateOfBoard pinBoard) 0 ⟨4, 1⟩ ⟨4, 2⟩
      (by decide) (by decide)).2.2.2.2.2.2⟩

/-! ### C2: `MakeMove` ignores the game status -/

theorem pseudoTargets_status (g : GameState) (s : GameStatus) (src : Position) :
    pseudoTargets { g with GameStatus := s } src = pseudoTargets g src := rfl

theorem makeMoveExec_status (g : GameState) (s : GameStatus) (now : Int) (src dst : Position) :
    (makeMoveExec { g with GameStatus := s } now src dst).2 = (makeMoveExec g now src dst).2 ∧
    (makeMoveExec { g with GameStatus := s } now src dst).1.Board =
      (makeMoveExec g now src dst).1.Board := by
  constructor <;>
  · simp only [makeMoveExec, applyMovedFlags_Board, applyMovedFlags_CurrentTurn,
      applyMovedFlags_MoveHistory, timerApply_Board]
    split_ifs <;> simp

/-- C2 (amended): `MakeMove` never consults `GameStatus` — its result
code and the board it produces are identical whatever the prior status,
so a move that validates can still succeed and mutate the board after a
terminal status (`WhiteWon`, `BlackWon`, `GameDraw`) has been reached. -/
theorem claim_C2_status_independent (g : GameState) (s : GameStatus) (now : Int)
    (src dst : Position) :
    (MakeMove { g with GameStatus := s } now src dst).2 = (MakeMove g now src dst).2 ∧
    (MakeMove { g with GameStatus := s } now src dst).1.Board =
      (MakeMove g now src dst).1.Board := by
  by_cases hA : IsValidBoardPosition src = true ∧ IsValidBoardPosition dst = true
  case neg =>
    rw [MakeMove_eq_invalid_of (g := { g with GameStatus := s }) (Or.inl hA),
      MakeMove_eq_invalid_of (Or.inl hA)]
    exact ⟨rfl, rfl⟩
  case pos =>
  by_cases hB : bget g.Board src.Y src.X = Empty
  case pos =>
    rw [MakeMove_eq_invalid_of (g := { g with GameStatus := s }) (Or.inr (Or.inl hB)),
      MakeMove_eq_invalid_of (Or.inr (Or.inl hB))]
    exact ⟨rfl, rfl⟩
  case neg =>
  by_cases hC : ((g.CurrentTurn = WhitePlayer ∧ IsPieceWhite (bget g.Board src.Y src.X) = false) ∨
      (g.CurrentTurn = BlackPlayer ∧ IsPieceBlack (bget g.Board src.Y src.X) = false))
  case pos =>
    rw [MakeMove_eq_invalid_of (g := { g with GameStatus := s }) (Or.inr (Or.inr (Or.inl hC))),
      MakeMove_eq_invalid_of (Or.inr (Or.inr (Or.inl hC)))]
    exact ⟨rfl, rfl⟩
  case neg =>
  by_cases hD : dst ∈ pseudoTargets g src
  case neg =>
    have hD' : dst ∉ pseudoTargets { g with GameStatus := s } src := by
      rw [pseudoTargets_status]; exact hD
    rw [MakeMove_eq_invalid_of (g := { g with GameStatus := s }) (Or.inr (Or.inr (Or.inr hD'))),
      MakeMove_eq_invalid_of (Or.inr (Or.inr (Or.inr hD)))]
    exact ⟨rfl, rfl⟩
  case pos =>
    have hD' : dst ∈ pseudoTargets { g with GameStatus := s } src := by
      rw [pseudoTargets_status]; exact hD
    rw [MakeMove_eq_exec hA hB hC hD,
      MakeMove_eq_exec (g := { g with GameStatus := s }) hA hB hC hD']
    exact makeMoveExec_status g s now src dst

/-! ### C3: undo after a move -/

theorem undo_board_restore (b : Board) (src dst : Position) :
    bset (bset (bset (bset b dst.Y dst.X (bget b src.Y src.X)) src.Y src.X Empty)
        src.Y src.X (bget b src.Y src.X)) dst.Y dst.X (bget b dst.Y dst.X) = b := by
  funext Y X
  simp only [bset, bget]
  split_ifs with h1 h2
  · obtain ⟨ha, hb⟩ := h1; subst ha; subst hb; rfl
  · obtain ⟨ha, hb⟩ := h2; subst ha; subst hb; rfl
  · rfl

/-- C3 (amended): for every accepted move that is *not* a castle,
`UndoLastMove` run immediately afterwards succeeds and restores the
board contents and the side-to-move exactly; the castle case is
excluded because the relocated rook is not restored (see the
counterexample). -/
theorem claim_C3_undo_roundtrip (g : GameState) (now : Int) (src dst : Position)
    (hs : (MakeMove g now src dst).2 ≠ MoveResult.InvalidMove)
    (hc : castleShape (bget g.Board src.Y src.X) src dst = false) :
    (UndoLastMove (MakeMove g now src dst).1).2 = true ∧
    (UndoLastMove (MakeMove g now src dst).1).1.Board = g.Board ∧
    (UndoLastMove (MakeMove g now src dst).1).1.CurrentTurn = g.CurrentTurn := by
  obtain ⟨hA, hB, hC, hD, heq⟩ := MakeMove_success_guards hs
  rw [heq]
  obtain ⟨hBoard, hTurn, hHist, -, -, -⟩ := makeMoveExec_spec g now src dst
  have hlast : (makeMoveExec g now src dst).1.MoveHistory.getLast? =
      some (recordedMove g src dst) := by
    rw [hHist]; exact List.getLast?_concat _
  have hrook : castleRookApply g.Board (bget g.Board src.Y src.X) src dst = g.Board :=
    castleRookApply_of_not_castle _ _ _ _
      (by simpa [castleShape, decide_eq_false_iff_not] using hc)
  unfold UndoLastMove
  rw [hlast]
  refine ⟨rfl, ?_, ?_⟩
  · show bset (bset (makeMoveExec g now src dst).1.Board (recordedMove g src dst).From.Y
        (recordedMove g src dst).From.X (recordedMove g src dst).Piece)
        (recordedMove g src dst).To.Y (recordedMove g src dst).To.X
        (recordedMove g src dst).Captured = g.Board
    rw [hBoard]
    simp only [recordedMove, moveBoard, hrook]
    exact undo_board_restore g.Board src dst
  · show 1 - (makeMoveExec g now src dst).1.CurrentTurn = g.CurrentTurn
    rw [hTurn]; ring

/-! ### C6: result codes and outcome updates -/

theorem IsInCheck_of_IsCheckmate {b : Board} {t : Int} (h : IsCheckmate b t = true) :
    IsInCheck b t = true := by
  unfold IsCheckmate at h
  cases hb : IsInCheck b t
  · rw [hb] at h; simp at h
  · rfl

theorem IsInCheck_false_of_IsStalemate {b : Board} {t : Int} (h : IsStalemate b t = true) :
    IsInCheck b t = false := by
  unfold IsStalemate at h
  cases hb : IsInCheck b t
  · rfl
  · rw [hb] at h; simp at h

theorem postCheckmate_eq_IsCheckmate (g : GameState) (src dst : Position) :
    postCheckmate g src dst = IsCheckmate (moveBoard g src dst) (1 - g.CurrentTurn) := by
  simp only [postCheckmate, postCheck]
  split_ifs with h
  · rfl
  · rw [Bool.not_eq_true] at h
    unfold IsCheckmate
    rw [if_pos h]

/-- C6: on a successful `MakeMove`, checkmate of the new side to move
sets the winner to the side that just moved and returns `Checkmate`
(taking priority over `Castling`); stalemate sets `GameDraw` and
returns `Stalemate`; otherwise `Check` and `Castling` are informational
codes read off the appended history record, with `ValidMove` as the
default. -/
theorem claim_C6_result_codes (g : GameState) (now : Int) (src dst : Position)
    (hs : (MakeMove g now src dst).2 ≠ MoveResult.InvalidMove)
    (ht : g.CurrentTurn = WhitePlayer ∨ g.CurrentTurn = BlackPlayer) :
    (IsCheckmate (MakeMove g now src dst).1.Board (MakeMove g now src dst).1.CurrentTurn = true →
      (MakeMove g now src dst).2 = MoveResult.Checkmate ∧
      (MakeMove g now src dst).1.GameStatus =
        (if g.CurrentTurn = WhitePlayer then GameStatus.WhiteWon else GameStatus.BlackWon)) ∧
    (IsStalemate (MakeMove g now src dst).1.Board (MakeMove g now src dst).1.CurrentTurn = true →
      (MakeMove g now src dst).2 = MoveResult.Stalemate ∧
      (MakeMove g now src dst).1.GameStatus = GameStatus.GameDraw) ∧
    (IsCheckmate (MakeMove g now src dst).1.Board (MakeMove g now src dst).1.CurrentTurn = false →
      IsStalemate (MakeMove g now src dst).1.Board (MakeMove g now src dst).1.CurrentTurn = false →
      (MakeMove g now src dst).2 =
        (if ((MakeMove g now src dst).1.MoveHistory.getLastD default).Check = true then
          MoveResult.Check
        else if ((MakeMove g now src dst).1.MoveHistory.getLastD default).Castling = true then
          MoveResult.Castling
        else MoveResult.ValidMove)) := by
  obtain ⟨hA, hB, hC, hD, heq⟩ := MakeMove_success_guards hs
  rw [heq]
  obtain ⟨hBoard, hTurn, hHist, hMate, hStale, hNorm⟩ := makeMoveExec_spec g now src dst
  rw [hBoard, hTurn, hHist]
  have hlastD : (g.MoveHistory ++ [recordedMove g src dst]).getLastD default =
      recordedMove g src dst := List.getLastD_concat _ _ _
  rw [hlastD]
  refine ⟨fun hcm => ?_, fun hst => ?_, fun hcm hst => ?_⟩
  · have hpm : postCheckmate g src dst = true := (postCheckmate_eq_IsCheckmate g src dst) ▸ hcm
    obtain ⟨hr, hgs, -, -⟩ := hMate hpm
    refine ⟨hr, hgs.trans ?_⟩
    rcases ht with ht | ht <;> norm_num [ht, WhitePlayer, BlackPlayer]
  · have hpm : postCheckmate g src dst = false := by
      rw [postCheckmate_eq_IsCheckmate]
      unfold IsCheckmate
      rw [IsInCheck_false_of_IsStalemate hst]
      simp
    obtain ⟨hr, hgs, -, -⟩ := hStale hpm hst
    exact ⟨hr, hgs⟩
  · have hpm : postCheckmate g src dst = false := (postCheckmate_eq_IsCheckmate g src dst) ▸ hcm
    obtain ⟨hr, -, -, -, -⟩ := hNorm hpm hst
    exact hr.trans (by rfl)

/-- C6 witness: the informational branch applied to the quiet rook
move e2–e3 of the pinned-rook board evaluates to `ValidMove`. -/
theorem claim_C6_result_codes_witness :
    ((MakeMove (stateOfBoard pinBoard) 0 ⟨4, 1⟩ ⟨4, 2⟩).2 ≠ MoveResult.InvalidMove) ∧
    (MakeMove (stateOfBoard pinBoard) 0 ⟨4, 1⟩ ⟨4, 2⟩).2 = MoveResult.ValidMove :=
  ⟨by decide,
    ((claim_C6_result_codes (stateOfBoard pinBoard) 0 ⟨4, 1⟩ ⟨4, 2⟩ (by decide)
      (Or.inl rfl)).2.2 (by decide) (by decide)).trans (by decide)⟩

/-! ### C7: clock debits -/

/-- C7 (amended): the clock debit happens only on successful moves
whose result is neither `Checkmate` nor `Stalemate` (those paths return
before the timer code): there, with the clock active, the elapsed time
`now - LastMoveTime` is debited from the side that just moved and the
other side is untouched, and with the clock inactive both remaining
times are unchanged.  `StopTimer` debits the side currently to move and
only when active, and `GetRemainingTime` is a pure field read. -/
theorem claim_C7_clock (g : GameState) (now : Int) (src dst : Position)
    (hs : (MakeMove g now src dst).2 ≠ MoveResult.InvalidMove)
    (hcm : (MakeMove g now src dst).2 ≠ MoveResult.Checkmate)
    (hstm : (MakeMove g now src dst).2 ≠ MoveResult.Stalemate) :
    ((g.TimerActive = true →
      (g.CurrentTurn = WhitePlayer →
        (MakeMove g now src dst).1.WhitePlayerTime = g.WhitePlayerTime - (now - g.LastMoveTime) ∧
        (MakeMove g now src dst).1.BlackPlayerTime = g.BlackPlayerTime) ∧
      (g.CurrentTurn = BlackPlayer →
        (MakeMove g now src dst).1.BlackPlayerTime = g.BlackPlayerTime - (now - g.LastMoveTime) ∧
        (MakeMove g now src dst).1.WhitePlayerTime = g.WhitePlayerTime)) ∧
    (g.TimerActive = false →
      (MakeMove g now src dst).1.WhitePlayerTime = g.WhitePlayerTime ∧
      (MakeMove g now src dst).1.BlackPlayerTime = g.BlackPlayerTime)) ∧
    (∀ h : GameState, ∀ n : Int, h.TimerActive = true →
      (h.CurrentTurn = WhitePlayer →
        (StopTimer h n).WhitePlayerTime = h.WhitePlayerTime - (n - h.LastMoveTime) ∧
        (StopTimer h n).BlackPlayerTime = h.BlackPlayerTime) ∧
      (¬(h.CurrentTurn = WhitePlayer) →
        (StopTimer h n).BlackPlayerTime = h.BlackPlayerTime - (n - h.LastMoveTime) ∧
        (StopTimer h n).WhitePlayerTime = h.WhitePlayerTime)) ∧
    (∀ h : GameState, h.TimerActive = false → ∀ n : Int, StopTimer h n = h) ∧
    (∀ h : GameState, ∀ p : Int, GetRemainingTime h p =
      (if p = WhitePlayer then h.WhitePlayerTime else h.BlackPlayerTime)) := by
  obtain ⟨hA, hB, hC, hD, heq⟩ := MakeMove_success_guards hs
  rw [heq] at hcm hstm ⊢
  obtain ⟨hBoard, hTurn, hHist, hMate, hStale, hNorm⟩ := makeMoveExec_spec g now src dst
  have hpm : postCheckmate g src dst = false := by
    cases hpc : postCheckmate g src dst
    · rfl
    · exact absurd (hMate hpc).1 hcm
  have hstf : IsStalemate (moveBoard g src dst) (1 - g.CurrentTurn) = false := by
    cases hsc : IsStalemate (moveBoard g src dst) (1 - g.CurrentTurn)
    · rfl
    · exact absurd (hStale hpm hsc).1 hstm
  obtain ⟨-, -, -, hActive, hInactive⟩ := hNorm hpm hstf
  refine ⟨⟨fun ha => ⟨fun htw => ?_, fun htb => ?_⟩, fun hia => hInactive hia⟩,
    fun h n hact => ⟨fun htw => ?_, fun htb => ?_⟩, fun h hina n => ?_, fun h p => rfl⟩
  · exact (hActive ha).2 (by rw [htw]; decide)
  · exact (hActive ha).1 (by rw [htb]; decide)
  · simp only [StopTimer]
    rw [if_pos hact, if_pos htw]
    exact ⟨rfl, rfl⟩
  · simp only [StopTimer]
    rw [if_pos hact, if_neg htb]
    exact ⟨rfl, rfl⟩
  · simp only [StopTimer]
    rw [if_neg (by simp [hina])]

/-- C7 counterexample: a successful checkmating move with the clock
active debits nobody — both remaining times stay 100 although 50 time
units elapsed — refuting "for every successful `executeMove` ... the
elapsed wall-time is debited". -/
theorem claim_C7_counterexample :
    (MakeMove { stateOfBoard mateBoard with TimerActive := true } 50 ⟨1, 1⟩ ⟨1, 6⟩).2 =
      MoveResult.Checkmate ∧
    { stateOfBoard mateBoard with TimerActive := true }.TimerActive = true ∧
    (MakeMove { stateOfBoard mateBoard with TimerActive := true } 50 ⟨1, 1⟩ ⟨1, 6⟩).1.WhitePlayerTime
      = 100 ∧
    (MakeMove { stateOfBoard mateBoard with TimerActive := true } 50 ⟨1, 1⟩ ⟨1, 6⟩).1.BlackPlayerTime
      = 100 := by decide

/-- C7 witness: the amended clause applied to the quiet rook move
e2–e3 with the clock running debits White 30 units. -/
theorem claim_C7_clock_witness :
    ((MakeMove { stateOfBoard pinBoard with TimerActive := true } 30 ⟨4, 1⟩ ⟨4, 2⟩).2 ≠
      MoveResult.InvalidMove) ∧
    (MakeMove { stateOfBoard pinBoard with TimerActive := true } 30 ⟨4, 1⟩ ⟨4, 2⟩).1.WhitePlayerTime
      = 100 - (30 - 0) :=
  ⟨by decide,
    (((claim_C7_clock { stateOfBoard pinBoard with TimerActive := true } 30 ⟨4, 1⟩ ⟨4, 2⟩
      (by decide) (by decide) (by decide)).1.1 rfl).1 rfl).1⟩

/-- C3 counterexample: after the king-side castle e1–g1 the undo
reverses only the king's two squares, so the rook stays on f1 and the
board is not restored, refuting the claim for castling moves. -/
theorem claim_C3_counterexample :
    (MakeMove (stateOfBoard castleBoard) 0 ⟨4, 0⟩ ⟨6, 0⟩).2 ≠ MoveResult.InvalidMove ∧
    (UndoLastMove (MakeMove (stateOfBoard castleBoard) 0 ⟨4, 0⟩ ⟨6, 0⟩).1).2 = true ∧
    bget (UndoLastMove (MakeMove (stateOfBoard castleBoard) 0 ⟨4, 0⟩ ⟨6, 0⟩).1).1.Board 0 5 ≠
      bget castleBoard 0 5 := by decide

/-- C3 witness: the amended round-trip applied to the rook move e2–e3
on the pinned-rook board. -/
theorem claim_C3_undo_roundtrip_witness :
    ((MakeMove (stateOfBoard pinBoard) 0 ⟨4, 1⟩ ⟨4, 2⟩).2 ≠ MoveResult.InvalidMove) ∧
    (UndoLastMove (MakeMove (stateOfBoard pinBoard) 0 ⟨4, 1⟩ ⟨4, 2⟩).1).2 = true ∧
    (UndoLastMove (MakeMove (stateOfBoard pinBoard) 0 ⟨4, 1⟩ ⟨4, 2⟩).1).1.CurrentTurn =
      (stateOfBoard pinBoard).CurrentTurn :=
  ⟨by decide,
    (claim_C3_undo_roundtrip (stateOfBoard pinBoard) 0 ⟨4, 1⟩ ⟨4, 2⟩
      (by decide) (by decide)).1,
    (claim_C3_undo_roundtrip (stateOfBoard pinBoard) 0 ⟨4, 1⟩ ⟨4, 2⟩
      (by decide) (by decide)).2.2⟩

/-- C2 counterexample: from a state whose status is already `WhiteWon`,
`MakeMove` still accepts the rook move e2–e4 and rewrites the board,
refuting "`executeMove` never succeeds once a non-InProgress state is
reached". -/
theorem claim_C2_counterexample :
    ({ stateOfBoard pinBoard with GameStatus := GameStatus.WhiteWon }.GameStatus ≠
      GameStatus.InProgress) ∧
    (MakeMove { stateOfBoard pinBoard with GameStatus := GameStatus.WhiteWon }
      0 ⟨4, 1⟩ ⟨4, 3⟩).2 ≠ MoveResult.InvalidMove ∧
    bget (MakeMove { stateOfBoard pinBoard with GameStatus := GameStatus.WhiteWon }
      0 ⟨4, 1⟩ ⟨4, 3⟩).1.Board 1 4 ≠ bget pinBoard 1 4 := by decide

end Chess
